import Mathlib

/-!
Verification of the Book Lamp metadata-lookup subsystem.

This file shallowly embeds the Python modules `book_lamp/utils/books.py`,
`book_lamp/services/cache.py`, `book_lamp/services/job_queue.py`,
`book_lamp/utils/sorting.py` and `book_lamp/services/book_lookup.py` into
Lean and proves (or refutes) the frozen specification claims about them.

Conventions of the embedding:
* Python strings are Lean `String`s; character classes (`str.isdigit`,
  `str.strip`, the regex class for whitespace) are modelled over their ASCII
  meaning, which is the range the program actually feeds them.
* Python dictionaries are association lists (`List (key × value)`) with
  first-match lookup and replace-in-place-or-append update, which matches
  CPython's insertion-ordered dict and SQLite's `INSERT OR REPLACE`.
* JSON-carried dynamic values are the inductive `Val` (None / str / int):
  the flat metadata records of this program hold only those shapes.
* HTTP calls are an oracle (`LookupWorld` / outcome types) passed in
  explicitly; wall-clock time is an explicit `now` argument.
* Python exceptions are modelled with `Except Unit` where a claim is about
  raising behaviour (the adapter layer); elsewhere functions are total.
-/

/-- Python's whitespace class: the characters removed by `str.strip()` and
matched by the regex class for whitespace, restricted to ASCII. -/
def pyIsSpace (c : Char) : Bool :=
  c.toNat = 32 || c.toNat = 9 || c.toNat = 10 || c.toNat = 13 ||
    c.toNat = 11 || c.toNat = 12

/-- Python's ASCII digit test (`str.isdigit` / the regex digit class on the
program's inputs): code points 48–57. -/
def pyIsDigit (c : Char) : Bool :=
  48 ≤ c.toNat && c.toNat ≤ 57

/-- The numeric value `int(c)` of a digit character. -/
def charDigit (c : Char) : Nat := c.toNat - 48

/-- Python's `str(d)` for a single decimal digit `d` (0–9). -/
def natToDigitChar (n : Nat) : Char :=
  if n = 0 then '0' else if n = 1 then '1' else if n = 2 then '2'
  else if n = 3 then '3' else if n = 4 then '4' else if n = 5 then '5'
  else if n = 6 then '6' else if n = 7 then '7' else if n = 8 then '8' else '9'

/-- `str.strip()` on a character list: drop leading and trailing whitespace. -/
def pyStripList (cs : List Char) : List Char :=
  ((cs.dropWhile pyIsSpace).reverse.dropWhile pyIsSpace).reverse

/-- `str.strip()` on a string. -/
def pyStrip (s : String) : String := ⟨pyStripList s.toList⟩

/-- ASCII `str.lower` on one character. -/
def pyLowerChar (c : Char) : Char :=
  if 65 ≤ c.toNat ∧ c.toNat ≤ 90 then Char.ofNat (c.toNat + 32) else c

/-- ASCII `str.lower` on a string. -/
def pyLower (s : String) : String := ⟨s.toList.map pyLowerChar⟩

/-- Split a character list at the first occurrence of `sep`
(`s.split(sep, 1)` when it returns two parts): `none` when `sep` does not
occur. An empty `sep` matches immediately, as Python's `in` does. -/
def splitOnce (sep : List Char) : List Char → Option (List Char × List Char)
  | [] => if sep = [] then some ([], []) else none
  | c :: rest =>
    if (c :: rest).take sep.length = sep then some ([], (c :: rest).drop sep.length)
    else match splitOnce sep rest with
      | some (pre, post) => some (c :: pre, post)
      | none => none

/-- `s.split(sep)[0]`: the part before the first occurrence of `sep`, or the
whole list when `sep` does not occur. -/
def beforeFirst (sep cs : List Char) : List Char :=
  match splitOnce sep cs with
  | some (pre, _) => pre
  | none => cs

/-- `s.rsplit(" ", 1)` when the separator occurs: split at the LAST
occurrence of the character `sep`. -/
def rsplitOnce (sep : Char) (cs : List Char) : Option (List Char × List Char) :=
  match splitOnce [sep] cs.reverse with
  | some (revAfter, revBefore) => some (revBefore.reverse, revAfter.reverse)
  | none => none

/-- Python's substring test `needle in hay`. -/
def strContainsList (needle hay : List Char) : Bool :=
  (splitOnce needle hay).isSome

/-- Helper for `str.split()`: accumulates the current run of
non-whitespace characters (reversed) while scanning. -/
def splitWSAux : List Char → List Char → List (List Char)
  | [], cur => if cur = [] then [] else [cur.reverse]
  | c :: rest, cur =>
    if pyIsSpace c then
      if cur = [] then splitWSAux rest [] else cur.reverse :: splitWSAux rest []
    else splitWSAux rest (c :: cur)

/-- Python's whitespace `str.split()`: runs of non-whitespace characters. -/
def splitWS (cs : List Char) : List (List Char) := splitWSAux cs []

/-- The number denoted by a list of decimal digit characters. -/
def digitsToNat (ds : List Char) : Nat :=
  ds.foldl (fun acc c => acc * 10 + charDigit c) 0

/-- Python's `int(s)` on a string: optional surrounding whitespace, optional
sign, then decimal digits; `none` models the `ValueError`. -/
def pyParseInt (s : String) : Option Int :=
  let cs := pyStripList s.toList
  let core : Bool × List Char :=
    match cs with
    | '-' :: rest => (true, rest)
    | '+' :: rest => (false, rest)
    | _ => (false, cs)
  if core.2 ≠ [] ∧ core.2.all pyIsDigit then
    some (if core.1 then -(digitsToNat core.2 : Int) else (digitsToNat core.2 : Int))
  else none

/-- Python's `float(s)` for the plain decimal forms this program feeds it
(Dewey classification codes such as "813.54"), valued in `ℚ`; `none` models
the `ValueError` on anything else. -/
def pyParseFloat (s : String) : Option ℚ :=
  let cs := pyStripList s.toList
  let core : Bool × List Char :=
    match cs with
    | '-' :: rest => (true, rest)
    | '+' :: rest => (false, rest)
    | _ => (false, cs)
  match splitOnce ['.'] core.2 with
  | some (ip, fp) =>
    if (ip ≠ [] ∨ fp ≠ []) ∧ ip.all pyIsDigit ∧ fp.all pyIsDigit then
      let mag : ℚ := (digitsToNat ip : ℚ) + (digitsToNat fp : ℚ) / ((10 : ℚ) ^ fp.length)
      some (if core.1 then -mag else mag)
    else none
  | none =>
    if core.2 ≠ [] ∧ core.2.all pyIsDigit then
      some (if core.1 then -(digitsToNat core.2 : ℚ) else (digitsToNat core.2 : ℚ))
    else none

/-- Fuel-bounded worker for `listReplace`; the fuel (the input's length)
always suffices because every step consumes at least one character. -/
def listReplaceAux (pat rep : List Char) : Nat → List Char → List Char
  | 0, cs => cs
  | _ + 1, [] => []
  | fuel + 1, c :: rest =>
    if pat ≠ [] ∧ (c :: rest).take pat.length = pat then
      rep ++ listReplaceAux pat rep fuel ((c :: rest).drop pat.length)
    else c :: listReplaceAux pat rep fuel rest

/-- Python's `hay.replace(pat, rep)`: replace every occurrence, scanning left
to right (non-overlapping). Empty patterns do not arise in this program. -/
def listReplace (pat rep cs : List Char) : List Char :=
  listReplaceAux pat rep cs.length cs

/-- `hay.replace(pat, rep)` on strings. -/
def strReplace (hay pat rep : String) : String :=
  ⟨listReplace pat.toList rep.toList hay.toList⟩

/-! ## Dynamic values and dictionaries -/

/-- The dynamic values that appear in this program's flat metadata records
and book dictionaries: Python `None`, `str` and `int`. -/
inductive Val where
  | vNone : Val
  | vStr (s : String) : Val
  | vInt (n : Int) : Val
deriving DecidableEq, Repr

/-- Python truthiness of a `Val` (`bool(v)`). -/
def pyTruthy : Val → Bool
  | .vNone => false
  | .vStr s => s ≠ ""
  | .vInt n => n ≠ 0

/-- `isinstance(v, str) and not v.strip()`: a (possibly empty)
whitespace-only string. -/
def isBlankStr : Val → Bool
  | .vStr s => pyStrip s = ""
  | _ => false

/-- A Python string value extracted as `Option String` (how optional string
fields are passed on to other functions). -/
def valToOptStr : Val → Option String
  | .vStr s => some s
  | _ => none

/-- Replace-or-append update of an association list: the semantics shared by
assignment to a CPython dict key (value replaced in place, new keys appended
in insertion order) and SQLite's `INSERT OR REPLACE` keyed row update. -/
def alistSet {κ β : Type} [BEq κ] (r : List (κ × β)) (k : κ) (v : β) : List (κ × β) :=
  if r.any (fun p => p.1 == k) then
    r.map (fun p => if p.1 == k then (k, v) else p)
  else r ++ [(k, v)]

/-- A Python dict with string keys and flat dynamic values: one metadata
record or one book record. -/
abbrev Rec := List (String × Val)

/-- `d.get(k)`: the value at `k`, with Python's `None` for a missing key. -/
def recGetD (r : Rec) (k : String) : Val :=
  (List.lookup k r).getD .vNone

/-- Keys of a record are pairwise distinct (always true of a Python dict). -/
abbrev nodupKeys (r : Rec) : Prop := (r.map Prod.fst).Nodup

/-! ## `book_lamp/utils/books.py` -/

/-- Characters that survive `normalize_isbn`'s first regex (everything that
is not whitespace and not a hyphen). -/
def isKeptIsbnChar (c : Char) : Bool := !(pyIsSpace c || c.toNat = 45)

/-- `normalize_isbn`: remove hyphens and whitespace, remember whether the
cleaned string ends in `x`/`X`, keep only digits, and re-append a final `X`. -/
def normalize_isbn (isbn : String) : String :=
  if isbn = "" then ""
  else
    let clean := isbn.toList.filter isKeptIsbnChar
    let has_x : Bool :=
      match clean.getLast? with
      | some c => c.toNat = 120 || c.toNat = 88
      | none => false
    let digits := clean.filter pyIsDigit
    if has_x then ⟨digits ++ ['X']⟩ else ⟨digits⟩

/-- The checksum loop shared by `is_valid_isbn13` and `isbn10_to_isbn13`:
digits weighted 1, 3, 1, 3, … starting at parity index `i`. -/
def isbn13WeightedSum : List Char → Nat → Nat
  | [], _ => 0
  | c :: rest, i =>
    charDigit c * (if i % 2 = 0 then 1 else 3) + isbn13WeightedSum rest (i + 1)

/-- `is_valid_isbn13`: 13 decimal digits whose final digit matches the
ISBN-13 check digit of the first twelve. -/
def is_valid_isbn13 (isbn : String) : Bool :=
  let cs := isbn.toList
  if cs.length = 13 ∧ cs.all pyIsDigit then
    let checksum := isbn13WeightedSum (cs.take 12) 0
    let check_digit := (10 - checksum % 10) % 10
    check_digit = charDigit (cs.getD 12 '0')
  else false

/-- `parse_publication_year`: replace `-`, `/`, `,` by spaces, split on
whitespace, and return the first 4-digit token as a number. -/
def parse_publication_year (publish_date : Option String) : Option Int :=
  match publish_date with
  | none => none
  | some s =>
    if s = "" then none
    else
      let swapped := s.toList.map
        (fun c => if c.toNat = 45 || c.toNat = 47 || c.toNat = 44 then ' ' else c)
      match (splitWS swapped).find? (fun t => t.length = 4 && t.all pyIsDigit) with
      | some t => some (digitsToNat t : Int)
      | none => none

/-- `isbn10_to_isbn13`: prefix the first nine digits with 978 and append the
recomputed ISBN-13 check digit. -/
def isbn10_to_isbn13 (isbn10 : String) : Option String :=
  let clean := normalize_isbn isbn10
  if clean.toList.length ≠ 10 then none
  else
    let core := ['9', '7', '8'] ++ clean.toList.take 9
    let checksum := isbn13WeightedSum core 0
    let check_digit := (10 - checksum % 10) % 10
    some ⟨core ++ [natToDigitChar check_digit]⟩

/-- The ISBN-10 checksum loop of `isbn13_to_isbn10`: digit at index `i`
weighted `10 - i`. -/
def isbn10CheckSum : List Char → Nat → Nat
  | [], _ => 0
  | c :: rest, i => charDigit c * (10 - i) + isbn10CheckSum rest (i + 1)

/-- `isbn13_to_isbn10`: for a 978-prefixed ISBN-13 take the middle nine
digits and the recomputed ISBN-10 check character (X for 10, 0 for 11); for
a 9798 prefix return the trailing ten digits; otherwise nothing. -/
def isbn13_to_isbn10 (isbn13 : String) : Option String :=
  let clean := normalize_isbn isbn13
  if clean.toList.length ≠ 13 then none
  else if clean.toList.take 3 = ['9', '7', '8'] then
    let core := (clean.toList.drop 3).take 9
    let total := isbn10CheckSum core 0
    let remainder := total % 11
    let check_digit := 11 - remainder
    let check_char :=
      if check_digit = 10 then 'X'
      else if check_digit = 11 then '0'
      else natToDigitChar check_digit
    some ⟨core ++ [check_char]⟩
  else if clean.toList.take 4 = ['9', '7', '9', '8'] then
    some ⟨(clean.toList.drop 3).take 10⟩
  else none

/-- The value a character contributes to the ISBN-10 checksum: 10 for the
check character `X`/`x`, otherwise its digit value. -/
def isbn10CharVal (c : Char) : Nat :=
  if c.toNat = 88 || c.toNat = 120 then 10 else charDigit c

/-- The original ISBN-10 string with a final lowercase `x` uppercased
(everything `normalize_isbn` changes on an already clean ISBN-10). -/
def upperLastX (s : String) : String :=
  ⟨s.toList.dropLast ++
    (s.toList.getLast?.map (fun c => if c = 'x' then 'X' else c)).toList⟩

/-! ## `book_lamp/services/cache.py` (`SQLiteCache`) -/

/-- One row of the SQLite `cache` table: the stored value and its absolute
expiry time. JSON (de)serialisation of the value is modelled as the identity
round trip. -/
structure CacheEntry (α : Type) where
  value : α
  expiry : Int
deriving DecidableEq, Repr

/-- The `cache` table: rows keyed by the cache key. -/
abbrev CacheState (α : Type) := List (String × CacheEntry α)

/-- `SQLiteCache.set(key, value, ttl)` at wall-clock time `now`:
`INSERT OR REPLACE` of the row with expiry `now + ttl`. -/
def cacheSet {α : Type} (st : CacheState α) (now : Int) (key : String)
    (value : α) (ttl : Int) : CacheState α :=
  alistSet st key ⟨value, now + ttl⟩

/-- `SQLiteCache`'s default TTL (30 days), used when `set` gets no `ttl`. -/
def cacheDefaultTtl : Int := 86400 * 30

/-- `SQLiteCache.get(key)` at wall-clock time `now`: the row's value when
`expiry > now` (`SELECT value FROM cache WHERE key = ? AND expiry > ?`),
otherwise `None`. -/
def cacheGet {α : Type} (st : CacheState α) (now : Int) (key : String) : Option α :=
  match List.lookup key st with
  | some e => if e.expiry > now then some e.value else none
  | none => none

/-! ## `book_lamp/services/job_queue.py` (`JobQueue`) -/

/-- `JobStatus`. -/
inductive JobStatus where
  | pending | running | completed | failed
deriving DecidableEq, Repr

/-- The `Job` dataclass. Timestamps are the opaque strings
`datetime.now(timezone.utc).isoformat()` produces, supplied by the caller of
each transition as `now`. -/
structure Job where
  id : String
  status : JobStatus
  function_name : String
  created_at : String
  started_at : Option String := none
  completed_at : Option String := none
  progress : Int := 0
  result : Option String := none
  error : Option String := none
deriving DecidableEq, Repr

/-- `JobQueue.jobs`: the job table keyed by job id. -/
abbrev JobQueueState := List (String × Job)

/-- Shared shape of the `JobQueue` mutators: update the job under `job_id`
in place when present, otherwise change nothing (the Python methods return
`False` on a missing id without touching state). -/
def updateJob (st : JobQueueState) (job_id : String) (f : Job → Job) : JobQueueState :=
  st.map (fun p => if p.1 == job_id then (p.1, f p.2) else p)

/-- `JobQueue.create_job`: insert a fresh PENDING job with progress 0. The
freshly generated uuid is the explicit `job_id` argument. -/
def create_job (st : JobQueueState) (job_id function_name now : String) : JobQueueState :=
  alistSet st job_id
    { id := job_id, status := .pending, function_name := function_name, created_at := now }

/-- `JobQueue.start_job`: mark RUNNING and stamp `started_at`. -/
def start_job (st : JobQueueState) (job_id now : String) : JobQueueState :=
  updateJob st job_id (fun j => { j with status := .running, started_at := some now })

/-- `JobQueue.update_progress`: clamp the supplied progress into [0, 100]
(`max(0, min(100, progress))`) and store it. -/
def update_progress (st : JobQueueState) (job_id : String) (progress : Int) : JobQueueState :=
  updateJob st job_id (fun j => { j with progress := max 0 (min 100 progress) })

/-- `JobQueue.complete_job`: mark COMPLETED, stamp `completed_at`, store the
result and set progress to 100. -/
def complete_job (st : JobQueueState) (job_id : String) (result : Option String)
    (now : String) : JobQueueState :=
  updateJob st job_id (fun j =>
    { j with status := .completed, completed_at := some now, result := result,
             progress := 100 })

/-- `JobQueue.fail_job`: mark FAILED, stamp `completed_at`, store the error. -/
def fail_job (st : JobQueueState) (job_id error now : String) : JobQueueState :=
  updateJob st job_id (fun j =>
    { j with status := .failed, completed_at := some now, error := some error })

/-- One `JobQueue` operation. `submit` is `submit_job`'s own effect (creating
the job); the `start_job` / `complete_job` / `fail_job` calls its background
thread later performs appear as separate, arbitrarily interleaved operations
of the sequence. -/
inductive JobOp where
  | create (job_id function_name now : String)
  | start (job_id now : String)
  | updateProgress (job_id : String) (progress : Int)
  | complete (job_id : String) (result : Option String) (now : String)
  | fail (job_id error now : String)
  | submit (job_id function_name now : String)

/-- Apply one operation to the queue state. -/
def applyJobOp (st : JobQueueState) : JobOp → JobQueueState
  | .create job_id fn now => create_job st job_id fn now
  | .start job_id now => start_job st job_id now
  | .updateProgress job_id p => update_progress st job_id p
  | .complete job_id res now => complete_job st job_id res now
  | .fail job_id err now => fail_job st job_id err now
  | .submit job_id fn now => create_job st job_id fn now

/-- Apply a sequence of operations to the queue state. -/
def applyJobOps (st : JobQueueState) (ops : List JobOp) : JobQueueState :=
  ops.foldl applyJobOp st

/-! ## `book_lamp/utils/sorting.py` -/

/-- `book.get(k, "") or ""` as consumed by the string-processing key
functions (`title.lower()`, `"," in author`): a missing key and every falsy
value give `""`; a truthy string passes through; a truthy non-string value
passes through the `or` and makes the consuming string operation raise,
which surfaces here as the error. -/
def bookGetStrE (b : Rec) (k : String) : Except Unit String :=
  match List.lookup k b with
  | some (.vStr s) => .ok s
  | some (.vInt n) => if n ≠ 0 then .error () else .ok ""
  | some .vNone => .ok ""
  | none => .ok ""

/-- `book.get(k, "") or ""` used directly as a sort key (`created_at`,
`start_date`): a missing key and every falsy value give `""`, a truthy
value passes through unchanged, possibly as a non-string. -/
def bookGetOrEmpty (b : Rec) (k : String) : Val :=
  match List.lookup k b with
  | some v => if pyTruthy v then v else .vStr ""
  | none => .vStr ""

/-- `r.get(k, dflt)`: the stored value when the key is present (even when
falsy), the default otherwise. -/
def recGetDD (r : Rec) (k : String) (dflt : Val) : Val :=
  (List.lookup k r).getD dflt

/-- `_normalise_title_for_sort`: lowercase, strip, and drop one leading
article ("the ", "a ", "an "). -/
def _normalise_title_for_sort (title : String) : String :=
  if title = "" then ""
  else
    let tl := (pyStrip (pyLower title)).toList
    if tl.take 4 = "the ".toList then ⟨tl.drop 4⟩
    else if tl.take 2 = "a ".toList then ⟨tl.drop 2⟩
    else if tl.take 3 = "an ".toList then ⟨tl.drop 3⟩
    else ⟨tl⟩

/-- `_parse_author_name`: (last name, first name), lowercased, handling
"Last, First", "First Last" and multiple authors joined by "and" / "&". -/
def _parse_author_name (author : String) : String × String :=
  if author = "" then ("", "")
  else
    let cs := author.toList
    match splitOnce [','] cs with
    | some (pre, post) =>
      let first_part := pyStripList pre
      let second_part0 := pyStripList post
      let second_part :=
        pyStripList (beforeFirst " & ".toList (beforeFirst " and ".toList second_part0))
      if second_part ≠ [] then
        (⟨first_part.map pyLowerChar⟩, ⟨second_part.map pyLowerChar⟩)
      else (⟨first_part.map pyLowerChar⟩, "")
    | none =>
      let first_author := pyStripList (beforeFirst " & ".toList (beforeFirst " and ".toList cs))
      match rsplitOnce ' ' first_author with
      | some (pre, post) => (⟨post.map pyLowerChar⟩, ⟨pre.map pyLowerChar⟩)
      | none => (⟨first_author.map pyLowerChar⟩, "")

/-- Lexicographic comparison of Python string 3-tuples. -/
def str3Le (a b : String × String × String) : Bool :=
  if a.1 ≠ b.1 then a.1 < b.1
  else if a.2.1 ≠ b.2.1 then a.2.1 < b.2.1
  else a.2.2 ≤ b.2.2

/-- Lexicographic comparison of Python (int, str) tuples. -/
def intStrLe (a b : Int × String) : Bool :=
  if a.1 ≠ b.1 then a.1 < b.1 else a.2 ≤ b.2

/-- Lexicographic comparison of Python (float, str) tuples (floats valued
in `ℚ`). -/
def ratStrLe (a b : ℚ × String) : Bool :=
  if a.1 ≠ b.1 then a.1 < b.1 else a.2 ≤ b.2

/-- Python's `sorted(xs, key=key, reverse=reverse)` for a total key: a
stable sort by the key; `reverse=True` sorts descending while keeping
equal-keyed elements in encounter order. -/
def pySorted {α β : Type} (key : α → β) (le : β → β → Bool) (reverse : Bool)
    (xs : List α) : List α :=
  if reverse then xs.mergeSort (fun a b => le (key b) (key a))
  else xs.mergeSort (fun a b => le (key a) (key b))

/-- `sorted(books, key=key, reverse=reverse)` for a key function that can
raise: CPython materialises every key before comparing, so the call raises
exactly when some key computation does. -/
def pySortedE {β : Type} (keyE : Rec → Except Unit β) (dflt : β)
    (le : β → β → Bool) (reverse : Bool) (books : List Rec) :
    Except Unit (List Rec) :=
  if books.all (fun b => (keyE b).isOk) then
    .ok (pySorted (fun b => (keyE b).toOption.getD dflt) le reverse books)
  else .error ()

/-- A raw sort key that is a Python string. -/
def isVStr : Val → Bool
  | .vStr _ => true
  | _ => false

/-- A raw sort key that is a Python int. -/
def isVInt : Val → Bool
  | .vInt _ => true
  | _ => false

/-- Comparability of raw (`Val`-valued) sort keys: all strings or all ints.
With two or more keys of mixed kinds CPython's sort is certain to compare a
cross-kind pair (the first key of the minority kind is compared against the
majority-kind prefix it is inserted into) and raise `TypeError`; with
uniform kinds no comparison raises. -/
def valKeysComparable (keys : List Val) : Bool :=
  keys.all isVStr || keys.all isVInt

/-- The order `sorted` applies to raw keys of a uniform kind: strings
lexicographic, ints numeric. The cross-kind cases are unreachable behind
`valKeysComparable` (Python would have raised) and get an arbitrary
value. -/
def valLe : Val → Val → Bool
  | .vStr a, .vStr b => a ≤ b
  | .vInt a, .vInt b => a ≤ b
  | _, _ => true

/-- `sorted(books, key=key, reverse=reverse)` for a raw `Val` key: the key
computation itself never raises, and the sort raises exactly when the keys
mix strings and ints. -/
def pySortedValE (key : Rec → Val) (reverse : Bool) (books : List Rec) :
    Except Unit (List Rec) :=
  if valKeysComparable (books.map key) then
    .ok (pySorted key valLe reverse books)
  else .error ()

/-- `sort_by_author`'s key: (last name, first name, normalised title). -/
def authorSortKeyE (book : Rec) : Except Unit (String × String × String) := do
  let author ← bookGetStrE book "author"
  let p := _parse_author_name author
  let title ← bookGetStrE book "title"
  pure (p.1, p.2, _normalise_title_for_sort title)

/-- `sort_by_author`. -/
def sort_by_author (books : List Rec) (reverse : Bool) : Except Unit (List Rec) :=
  pySortedE authorSortKeyE ("", "", "") str3Le reverse books

/-- `sort_by_title`'s key: (normalised title, last name, first name). -/
def titleSortKeyE (book : Rec) : Except Unit (String × String × String) := do
  let title ← bookGetStrE book "title"
  let author ← bookGetStrE book "author"
  let p := _parse_author_name author
  pure (_normalise_title_for_sort title, p.1, p.2)

/-- `sort_by_title`. -/
def sort_by_title (books : List Rec) (reverse : Bool) : Except Unit (List Rec) :=
  pySortedE titleSortKeyE ("", "", "") str3Le reverse books

/-- `sort_by_year`'s key: (`int(publication_year)` with 0 for a falsy or
unparseable value - that conversion catches its own errors - and the
normalised title). -/
def yearSortKeyE (book : Rec) : Except Unit (Int × String) := do
  let year_int : Int :=
    match List.lookup "publication_year" book with
    | some v =>
      if pyTruthy v then
        match v with
        | .vInt n => n
        | .vStr s => (pyParseInt s).getD 0
        | .vNone => 0
      else 0
    | none => 0
  let title ← bookGetStrE book "title"
  pure (year_int, _normalise_title_for_sort title)

/-- `sort_by_year`. -/
def sort_by_year (books : List Rec) (reverse : Bool) : Except Unit (List Rec) :=
  pySortedE yearSortKeyE (0, "") intStrLe reverse books

/-- `sort_by_dewey_decimal`'s key: (`float(dewey_decimal)` with 9999.0 for
a falsy or unparseable value - that conversion catches its own errors - and
the normalised title). -/
def deweySortKeyE (book : Rec) : Except Unit (ℚ × String) := do
  let ddc_float : ℚ :=
    match List.lookup "dewey_decimal" book with
    | some v =>
      if pyTruthy v then
        match v with
        | .vStr s => (pyParseFloat s).getD 9999
        | .vInt n => (n : ℚ)
        | .vNone => 9999
      else 9999
    | none => 9999
  let title ← bookGetStrE book "title"
  pure (ddc_float, _normalise_title_for_sort title)

/-- `sort_by_dewey_decimal`. -/
def sort_by_dewey_decimal (books : List Rec) (reverse : Bool) :
    Except Unit (List Rec) :=
  pySortedE deweySortKeyE (9999, "") ratStrLe reverse books

/-- `sort_by_date_added`'s key: `book.get("created_at", "") or ""`, used
raw. -/
def dateAddedSortKey (book : Rec) : Val := bookGetOrEmpty book "created_at"

/-- `sort_by_date_added`. -/
def sort_by_date_added (books : List Rec) (reverse : Bool) :
    Except Unit (List Rec) :=
  pySortedValE dateAddedSortKey reverse books

/-- Python's `a > b` on the raw `start_date` values of two reading records:
strings compare lexicographically, ints numerically, and any other pairing
(`None` included) raises `TypeError`. -/
def pyGtE : Val → Val → Except Unit Bool
  | .vStr a, .vStr b => .ok (b < a)
  | .vInt a, .vInt b => .ok (b < a)
  | _, _ => .error ()

/-- The `records_by_book` loop of `sort_by_reading_date`: records with a
falsy `book_id` are skipped; any truthy id (of any type) keys the dict; the
first record for an id is kept, and a later record replaces it when its raw
`start_date` compares greater - a comparison that can raise. -/
def recordsByBookAux : List Rec → List (Val × Rec) → Except Unit (List (Val × Rec))
  | [], m => .ok m
  | record :: rest, m =>
    let book_id := recGetD record "book_id"
    if pyTruthy book_id then
      match List.lookup book_id m with
      | none => recordsByBookAux rest (alistSet m book_id record)
      | some existing =>
        match pyGtE (recGetDD record "start_date" (.vStr ""))
            (recGetDD existing "start_date" (.vStr "")) with
        | .error e => .error e
        | .ok true => recordsByBookAux rest (alistSet m book_id record)
        | .ok false => recordsByBookAux rest m
    else recordsByBookAux rest m

/-- The `records_by_book` map of `sort_by_reading_date`, built from an
empty dict. -/
def recordsByBookE (reading_records : List Rec) :
    Except Unit (List (Val × Rec)) :=
  recordsByBookAux reading_records []

/-- `sort_by_reading_date`'s key: the matched reading record's
`start_date` (with `or ""`), falling back to the book's `created_at`. -/
def readingDateSortKey (m : List (Val × Rec)) (book : Rec) : Val :=
  let book_id := recGetD book "id"
  if pyTruthy book_id then
    match List.lookup book_id m with
    | some record => bookGetOrEmpty record "start_date"
    | none => bookGetOrEmpty book "created_at"
  else bookGetOrEmpty book "created_at"

/-- `sort_by_reading_date`: build the per-book latest-reading map (which
can raise), then sort by its raw keys. -/
def sort_by_reading_date (books : List Rec) (reading_records : List Rec)
    (reverse : Bool) : Except Unit (List Rec) :=
  match recordsByBookE reading_records with
  | .error e => .error e
  | .ok m => pySortedValE (readingDateSortKey m) reverse books

/-- The keys of `SORT_OPTIONS`. -/
def sortOptionKeys : List String :=
  ["reading_date", "date_added", "author", "title", "year", "dewey"]

/-- `sort_books`: dispatch on the sort key, falling back to `reading_date`
for an unrecognised key; a `None` reverse flag defaults to `True` for the
date-based sorts and `False` for the alphabetical ones. -/
def sort_books (books : List Rec) (sort_by : String)
    (reading_records : Option (List Rec)) (reverse : Option Bool) :
    Except Unit (List Rec) :=
  let sb := if sortOptionKeys.contains sort_by then sort_by else "reading_date"
  let rev :=
    match reverse with
    | some r => r
    | none => sb = "reading_date" || sb = "date_added" || sb = "year"
  if sb = "reading_date" then
    sort_by_reading_date books (reading_records.getD []) rev
  else if sb = "date_added" then sort_by_date_added books rev
  else if sb = "author" then sort_by_author books rev
  else if sb = "title" then sort_by_title books rev
  else if sb = "year" then sort_by_year books rev
  else sort_by_dewey_decimal books rev

/-- A value the sort-key string coercion accepts without raising: a string,
or anything falsy. -/
def strOrFalsy : Val → Bool
  | .vStr _ => true
  | .vInt n => n == 0
  | .vNone => true

/-- The book field `k` is a string or falsy, so `get(k, "") or ""` feeds
the string operations (or the raw key position) a string. -/
def okStrField (b : Rec) (k : String) : Bool := strOrFalsy (recGetD b k)

/-- The record field `k`, when present, is a string, so the raw
`get(k, "")` comparisons stay string-to-string. -/
def strIfPresent (r : Rec) (k : String) : Bool :=
  match List.lookup k r with
  | some (.vStr _) => true
  | some _ => false
  | none => true

/-! ## `book_lamp/services/book_lookup.py`: merge and orchestrator -/

/-- `_merge_metadata`: for each source item in order, copy it into the
target when the source value is truthy and not a whitespace-only string and
the target's value under that key is falsy. A `None` (or empty) source
leaves the target unchanged. -/
def _merge_metadata (target : Rec) (source : Option Rec) : Rec :=
  match source with
  | none => target
  | some src =>
    src.foldl
      (fun t kv =>
        if pyTruthy kv.2 && !isBlankStr kv.2 && !pyTruthy (recGetD t kv.1) then
          alistSet t kv.1 kv.2
        else t)
      target

/-- The data sources `lookup_book_by_isbn13` can attempt, in their fixed
order of attempt. -/
inductive Src where
  | olIsbn | gbIsbn | olCover | prhCover | amzCover | olSearch | gbSearch | itSearch
deriving DecidableEq, Repr

/-- The summarised outcome of one Open Library batch (`/api/books`) call:
a raised request/JSON-decode exception, a non-200 status, or a decoded
payload mapping (already-parsed) records to the ISBNs the payload contains. -/
inductive ChunkResp where
  | httpError
  | status (code : Nat)
  | ok (payload : List (String × Rec))

/-- The external world of `book_lookup.py`: one pure response per adapter
call. Metadata adapters yield their already-parsed optional record
(`_parse_…` faithfulness to raw JSON is treated separately at the
exception-level embedding); cover probes yield an optional image URL. -/
structure LookupWorld where
  open_library : String → Option Rec
  google_books : String → Option Rec
  open_library_cover_direct : String → Option String
  penguin_cover : String → Option String
  amazon_cover : String → Option String
  open_library_search : String → Option String → Option Rec
  google_books_search : String → Option String → Option Rec
  itunes_search : String → Option String → Option Rec
  batch_chunk : List String → ChunkResp

/-- Truthiness of the accumulated record's `thumbnail_url` (the orchestrator's
short-circuit test `best.get("thumbnail_url")`). -/
def thumbTruthy (r : Rec) : Bool := pyTruthy (recGetD r "thumbnail_url")

/-- Truthiness of an optional string argument (`if title:`). -/
def optStrTruthy : Option String → Bool
  | some s => s ≠ ""
  | none => false

/-- The cache test at the top of `lookup_book_by_isbn13`:
`cached and (cached.get("thumbnail_url") or not title)`. -/
def lookupCacheHit (cache : CacheState Rec) (now : Int) (isbn13 : String)
    (title : Option String) : Bool :=
  match cacheGet cache now ("isbn:" ++ normalize_isbn isbn13) with
  | some c => c ≠ [] && (thumbTruthy c || !optStrTruthy title)
  | none => false

/-- The result of one orchestrator call: the returned optional record, the
cache after the call, and (as instrumentation) the sources attempted. -/
structure LookupResult where
  result : Option Rec
  cache : CacheState Rec
  trace : List Src
deriving Repr

/-- The orchestrator's final fall-through: cache and return the accumulated
record when it holds more than the ISBN key, else `None`. -/
def lookupFinish (cache : CacheState Rec) (now : Int) (ckey : String) (best : Rec)
    (trace : List Src) : LookupResult :=
  if best.length > 1 then
    { result := some best, cache := cacheSet cache now ckey best cacheDefaultTtl,
      trace := trace }
  else { result := none, cache := cache, trace := trace }

/-- The record `lookup_book_by_isbn13` starts from: the normalised ISBN,
plus the caller's title and author when truthy. -/
def lookupSeed (isbn13 : String) (title author : Option String) : Rec :=
  let clean_isbn := normalize_isbn isbn13
  let best0 : Rec := [("isbn13", .vStr clean_isbn)]
  let best1 :=
    match title with
    | some t => if t ≠ "" then alistSet best0 "title" (.vStr t) else best0
    | none => best0
  match author with
  | some a => if a ≠ "" then alistSet best1 "author" (.vStr a) else best1
  | none => best1

/-- `lookup_book_by_isbn13`: cache check, the two ISBN metadata lookups, the
three direct cover probes, the three title/author search fallbacks, each
followed by the cover short-circuit, and the final fall-through. -/
def lookup_book_by_isbn13 (w : LookupWorld) (cache : CacheState Rec) (now : Int)
    (isbn13 : String) (title author : Option String) : LookupResult :=
  let clean_isbn := normalize_isbn isbn13
  let ckey := "isbn:" ++ clean_isbn
  if lookupCacheHit cache now isbn13 title then
    { result := cacheGet cache now ckey, cache := cache, trace := [] }
  else
    let best2 := lookupSeed isbn13 title author
    let m1 := _merge_metadata best2 (w.open_library clean_isbn)
    let m2 := _merge_metadata m1 (w.google_books clean_isbn)
    if thumbTruthy m2 then
      { result := some m2, cache := cacheSet cache now ckey m2 cacheDefaultTtl,
        trace := [.olIsbn, .gbIsbn] }
    else
      match w.open_library_cover_direct clean_isbn with
      | some url =>
        let b := alistSet (alistSet m2 "thumbnail_url" (.vStr url)) "cover_url"
          (.vStr (strReplace url "-M.jpg" "-L.jpg"))
        { result := some b, cache := cacheSet cache now ckey b cacheDefaultTtl,
          trace := [.olIsbn, .gbIsbn, .olCover] }
      | none =>
      match w.penguin_cover clean_isbn with
      | some url =>
        let b := alistSet (alistSet m2 "thumbnail_url" (.vStr url)) "cover_url" (.vStr url)
        { result := some b, cache := cacheSet cache now ckey b cacheDefaultTtl,
          trace := [.olIsbn, .gbIsbn, .olCover, .prhCover] }
      | none =>
      match w.amazon_cover clean_isbn with
      | some url =>
        let b := alistSet (alistSet m2 "thumbnail_url" (.vStr url)) "cover_url" (.vStr url)
        { result := some b, cache := cacheSet cache now ckey b cacheDefaultTtl,
          trace := [.olIsbn, .gbIsbn, .olCover, .prhCover, .amzCover] }
      | none =>
        let trace0 : List Src := [.olIsbn, .gbIsbn, .olCover, .prhCover, .amzCover]
        match valToOptStr (recGetD m2 "title") with
        | some t =>
          if t ≠ "" && t ≠ "Unknown" then
            let sa := valToOptStr (recGetD m2 "author")
            let s1 := _merge_metadata m2 (w.open_library_search t sa)
            if thumbTruthy s1 then
              { result := some s1, cache := cacheSet cache now ckey s1 cacheDefaultTtl,
                trace := trace0 ++ [.olSearch] }
            else
              let s2 := _merge_metadata s1 (w.google_books_search t sa)
              if thumbTruthy s2 then
                { result := some s2, cache := cacheSet cache now ckey s2 cacheDefaultTtl,
                  trace := trace0 ++ [.olSearch, .gbSearch] }
              else
                let s3 := _merge_metadata s2 (w.itunes_search t sa)
                if thumbTruthy s3 then
                  { result := some s3, cache := cacheSet cache now ckey s3 cacheDefaultTtl,
                    trace := trace0 ++ [.olSearch, .gbSearch, .itSearch] }
                else lookupFinish cache now ckey s3 (trace0 ++ [.olSearch, .gbSearch, .itSearch])
          else lookupFinish cache now ckey m2 trace0
        | none => lookupFinish cache now ckey m2 trace0

/-! ## `lookup_books_batch` and `enhance_books_batch` -/

/-- Fuel-bounded worker for `chunks50`; the fuel (the input's length) always
suffices because every chunk consumes at least one element. -/
def chunks50Aux {α : Type} : Nat → List α → List (List α)
  | 0, _ => []
  | _ + 1, [] => []
  | fuel + 1, x :: xs => ((x :: xs).take 50) :: chunks50Aux fuel ((x :: xs).drop 50)

/-- Successive chunks of 50 (the batch endpoint's chunk size). -/
def chunks50 {α : Type} (xs : List α) : List (List α) :=
  chunks50Aux xs.length xs

/-- The result of `lookup_books_batch`: the `results` dict (normalised
ISBN ↦ optional record) and the cache afterwards. -/
structure BatchResult where
  results : List (String × Option Rec)
  cache : CacheState Rec


/-- Process one chunk of not-cached ISBNs: a non-200 status leaves the
results dict untouched (`continue`); a raised request/decode exception
records `None` for the whole chunk; a decoded payload records and caches
each ISBN the payload contains and records `None` for the rest. -/
def runBatchChunk (w : LookupWorld) (now : Int) (acc : BatchResult)
    (chunk : List String) : BatchResult :=
  match w.batch_chunk chunk with
  | .status _ => acc
  | .httpError =>
    { acc with results := chunk.foldl (fun r isbn => alistSet r isbn none) acc.results }
  | .ok payload =>
    chunk.foldl
      (fun a isbn =>
        match List.lookup isbn payload with
        | some data =>
          { results := alistSet a.results isbn (some data),
            cache := cacheSet a.cache now ("isbn:" ++ isbn) data cacheDefaultTtl }
        | none => { a with results := alistSet a.results isbn none })
      acc

/-- `lookup_books_batch`: normalise and deduplicate the ISBNs (Python's
`list(set(…))` has no defined order; the embedding keeps one occurrence of
each), answer what the cache holds (a truthy cached value is a hit), and
fetch the remainder from the batch endpoint in chunks of 50. -/
def lookup_books_batch (w : LookupWorld) (cache : CacheState Rec) (now : Int)
    (isbn13_list : List String) : BatchResult :=
  if isbn13_list = [] then { results := [], cache := cache }
  else
    let unique_isbns := (isbn13_list.map normalize_isbn).dedup
    let cacheStep := unique_isbns.foldl
      (fun (a : List (String × Option Rec) × List String) isbn =>
        match cacheGet cache now ("isbn:" ++ isbn) with
        | some c => if c ≠ [] then (alistSet a.1 isbn (some c), a.2) else (a.1, a.2 ++ [isbn])
        | none => (a.1, a.2 ++ [isbn]))
      ([], [])
    if cacheStep.2 = [] then { results := cacheStep.1, cache := cache }
    else
      (chunks50 cacheStep.2).foldl (runBatchChunk w now)
        { results := cacheStep.1, cache := cache }

/-- The local `is_empty` of `enhance_books_batch`: `None` or a
whitespace-only string. -/
def enhanceIsEmpty (v : Val) : Bool := v = .vNone || isBlankStr v

/-- The metadata fields whose emptiness makes a book a candidate. -/
def enhanceFields : List String :=
  ["thumbnail_url", "title", "author", "publication_year", "publisher",
   "description", "cover_url"]

/-- Candidate test of `enhance_books_batch`: a truthy `isbn13`, and a
missing tracked field or no cover at all. -/
def isCandidate (b : Rec) : Bool :=
  pyTruthy (recGetD b "isbn13") &&
  (enhanceFields.any (fun f => enhanceIsEmpty (recGetD b f)) ||
   !(pyTruthy (recGetD b "cover_url") || pyTruthy (recGetD b "thumbnail_url")))

/-- A book's raw `isbn13` value as the string handed to `normalize_isbn`
(`str()` of a number; a falsy value normalises to `""` either way). -/
def valToIsbnStr : Val → String
  | .vStr s => s
  | .vInt n => toString n
  | .vNone => ""

/-- The target fields `process_book` copies verbatim from the lookup result
(`field_map`; source and target names coincide). -/
def fieldMapKeys : List String :=
  ["thumbnail_url", "cover_url", "title", "author", "publisher", "description",
   "dewey_decimal", "language", "page_count", "physical_format", "edition"]

/-- The length truncation `process_book` applies to string values: titles to
300 characters, authors to 200. -/
def truncateForField (target : String) (v : Val) : Val :=
  match v with
  | .vStr s =>
    if target = "title" ∧ s.toList.length > 300 then .vStr ⟨s.toList.take 300⟩
    else if target = "author" ∧ s.toList.length > 200 then .vStr ⟨s.toList.take 200⟩
    else .vStr s
  | v => v

/-- The result of `process_book` on one candidate: the (possibly updated)
book, `has_updates`, the cache afterwards, and (instrumentation) whether the
deep single-item lookup was invoked. -/
structure ProcessResult where
  book : Rec
  has_updates : Bool
  cache : CacheState Rec
  deep : Bool

/-- The field-filling tail of `process_book`, after the batch/deep
resolution: fill each empty tracked field from the resolved record (with
title/author truncation, both applied only to strings), then derive
`publication_year` from `publish_date`. A truthy non-string `publish_date`
makes `parse_publication_year` raise `AttributeError`; `process_book`'s
`except Exception: return False` catches it, so the fills already applied
in place are kept while the reported update flag is `False` - the
`(step.1, false)` branch. No resolved record leaves the book untouched. -/
def processTail (book_item : Rec) (oi : Option Rec) (cch : CacheState Rec)
    (deep : Bool) : ProcessResult :=
  match oi with
  | none =>
    { book := book_item, has_updates := false, cache := cch, deep := deep }
  | some info =>
    let step := fieldMapKeys.foldl
      (fun (a : Rec × Bool) f =>
        if enhanceIsEmpty (recGetD a.1 f) && pyTruthy (recGetD info f) then
          (alistSet a.1 f (truncateForField f (recGetD info f)), true)
        else a)
      (book_item, false)
    let withYear : Rec × Bool :=
      if enhanceIsEmpty (recGetD step.1 "publication_year") &&
          pyTruthy (recGetD info "publish_date") then
        match recGetD info "publish_date" with
        | .vStr s =>
          match parse_publication_year (some s) with
          | some y =>
            if y ≠ 0 then (alistSet step.1 "publication_year" (.vInt y), true) else step
          | none => step
        | _ => (step.1, false)
      else step
    { book := withYear.1, has_updates := withYear.2, cache := cch, deep := deep }

/-- The deep-fallback test of `process_book`:
`if not book_info or not book_info.get("thumbnail_url")`. -/
def deepFallbackNeeded (batch_results : List (String × Option Rec))
    (book_item : Rec) : Bool :=
  match (List.lookup (normalize_isbn (valToIsbnStr (recGetD book_item "isbn13")))
      batch_results).getD none with
  | some info => !(info ≠ [] && pyTruthy (recGetD info "thumbnail_url"))
  | none => true

/-- `process_book`: read the batch result for the book's normalised ISBN;
fall back to the deep orchestrator lookup when the batch result is missing,
falsy, or has no thumbnail (merging deep data over a truthy batch record);
then fill each empty tracked field from the result (with title/author
truncation) and derive `publication_year` from `publish_date`. -/
def process_book (w : LookupWorld) (cache : CacheState Rec) (now : Int)
    (batch_results : List (String × Option Rec)) (book_item : Rec) : ProcessResult :=
  let isbn := normalize_isbn (valToIsbnStr (recGetD book_item "isbn13"))
  let info0 : Option Rec := (List.lookup isbn batch_results).getD none
  let deepNeeded : Bool :=
    match info0 with
    | some info => !(info ≠ [] && pyTruthy (recGetD info "thumbnail_url"))
    | none => true
  let afterDeep : Option Rec × CacheState Rec :=
    if deepNeeded then
      let r := lookup_book_by_isbn13 w cache now isbn
        (valToOptStr (recGetD book_item "title")) (valToOptStr (recGetD book_item "author"))
      match r.result with
      | some deep_info =>
        (match info0 with
         | some info =>
           if info ≠ [] then some (_merge_metadata info deep_info) else some deep_info
         | none => some deep_info,
         r.cache)
      | none => (info0, r.cache)
    else (info0, cache)
  processTail book_item afterDeep.1 afterDeep.2 deepNeeded

/-- The result of `enhance_books_batch`: the books afterwards (positionally),
the per-position update flags and count, the cache, and (instrumentation)
the normalised ISBNs for which the deep fallback was invoked. -/
structure EnhanceResult where
  books : List Rec
  flags : List Bool
  updated : Nat
  cache : CacheState Rec
  deepIsbns : List String

/-- The worker-pool phase of `enhance_books_batch`. Each task reads the
shared read-only batch map and touches only its own book, so the pool is
modelled by processing the books in list order. -/
def enhanceLoop (w : LookupWorld) (now : Int)
    (batch_results : List (String × Option Rec)) :
    List Rec → CacheState Rec → EnhanceResult
  | [], cache => { books := [], flags := [], updated := 0, cache := cache, deepIsbns := [] }
  | b :: rest, cache =>
    if isCandidate b then
      let p := process_book w cache now batch_results b
      let r := enhanceLoop w now batch_results rest p.cache
      { books := p.book :: r.books, flags := p.has_updates :: r.flags,
        updated := (if p.has_updates then 1 else 0) + r.updated,
        cache := r.cache,
        deepIsbns :=
          (if p.deep then [normalize_isbn (valToIsbnStr (recGetD b "isbn13"))] else [])
            ++ r.deepIsbns }
    else
      let r := enhanceLoop w now batch_results rest cache
      { r with books := b :: r.books, flags := false :: r.flags }

/-- `enhance_books_batch`: select the candidates, bulk-look-up all their
ISBNs at once, then enhance each candidate (in the worker pool, modelled
sequentially), returning how many books were updated. -/
def enhance_books_batch (w : LookupWorld) (cache : CacheState Rec) (now : Int)
    (books : List Rec) : EnhanceResult :=
  let candidates := books.filter isCandidate
  if candidates = [] then
    { books := books, flags := books.map (fun _ => false), updated := 0,
      cache := cache, deepIsbns := [] }
  else
    let all_isbns := candidates.map (fun b => valToIsbnStr (recGetD b "isbn13"))
    let batch := lookup_books_batch w cache now all_isbns
    enhanceLoop w now batch.results books batch.cache

/-! ## Exception-level embedding of the source adapters (JSON values) -/

/-- A decoded JSON value, as `response.json()` can return it. -/
inductive JVal where
  | jNull
  | jBool (b : Bool)
  | jNum (n : Int)
  | jStr (s : String)
  | jArr (xs : List JVal)
  | jObj (fields : List (String × JVal))

/-- A Python dict of decoded JSON values (what the `_parse_…` helpers build). -/
abbrev PyDict := List (String × JVal)

/-- Python truthiness of a JSON value. -/
def jTruthy : JVal → Bool
  | .jNull => false
  | .jBool b => b
  | .jNum n => n ≠ 0
  | .jStr s => s ≠ ""
  | .jArr xs => !xs.isEmpty
  | .jObj fields => !fields.isEmpty

/-- Python's `a or b` on JSON values. -/
def jOr (a b : JVal) : JVal := if jTruthy a then a else b

/-- The elements of a JSON array (`[]` on anything else; callers guard with
`isinstance(…, list)`). -/
def jArrElems : JVal → List JVal
  | .jArr xs => xs
  | _ => []

/-- `isinstance(v, list)`. -/
def isJArr : JVal → Bool
  | .jArr _ => true
  | _ => false

/-- `isinstance(v, dict)`. -/
def isJObj : JVal → Bool
  | .jObj _ => true
  | _ => false

/-- `xs[0]` on a list known non-empty (all uses are guarded by truthiness). -/
def jHead : List JVal → JVal
  | [] => .jNull
  | x :: _ => x

/-- Membership of a string in a JSON array (Python's `key in [...]`:
element-wise equality; a string equals only an equal string). -/
def jArrContainsStr (key : String) : List JVal → Bool
  | [] => false
  | .jStr s :: rest => s = key || jArrContainsStr key rest
  | _ :: rest => jArrContainsStr key rest

/-- Python's `key in container`: key test on a dict, membership on a list,
substring test on a string, `TypeError` on anything else. -/
def pyContains (container : JVal) (key : String) : Except Unit Bool :=
  match container with
  | .jObj fields => .ok ((List.lookup key fields).isSome)
  | .jArr xs => .ok (jArrContainsStr key xs)
  | .jStr s => .ok (strContainsList key.toList s.toList)
  | _ => .error ()

/-- Python's `container[key]` for a string key: dict lookup (`KeyError` when
absent), `TypeError` on anything else. -/
def pyIndexStr (container : JVal) (key : String) : Except Unit JVal :=
  match container with
  | .jObj fields =>
    match List.lookup key fields with
    | some v => .ok v
    | none => .error ()
  | _ => .error ()

/-- Python's `container[0]`: first element of a list (`IndexError` when
empty), first character of a string, an error on anything else. -/
def pyIndexZero (container : JVal) : Except Unit JVal :=
  match container with
  | .jArr (x :: _) => .ok x
  | .jArr [] => .error ()
  | .jStr s =>
    match s.toList with
    | c :: _ => .ok (.jStr ⟨[c]⟩)
    | [] => .error ()
  | _ => .error ()

/-- Python's `container.get(key)`: `None`-defaulted dict lookup;
`AttributeError` when the receiver is not a dict. -/
def pyGetJ (container : JVal) (key : String) : Except Unit JVal :=
  match container with
  | .jObj fields => .ok ((List.lookup key fields).getD .jNull)
  | _ => .error ()

/-- Python's `container.get(key, default)`. -/
def pyGetJD (container : JVal) (key : String) (dflt : JVal) : Except Unit JVal :=
  match container with
  | .jObj fields => .ok ((List.lookup key fields).getD dflt)
  | _ => .error ()

/-- `html.unescape(v)`: entity decoding is modelled as the identity on the
string's content; the call raises on a non-string receiver. -/
def pyUnescapeJ (v : JVal) : Except Unit JVal :=
  match v with
  | .jStr s => .ok (.jStr s)
  | _ => .error ()

/-- `html.unescape(v) if v else v`, the guarded form the parsers use. -/
def unescapeIfTruthy (v : JVal) : Except Unit JVal :=
  if jTruthy v then pyUnescapeJ v else .ok v

/-- `", ".join(v)`: joins a list of strings (`TypeError` on a non-string
element), the characters of a string, or the keys of a dict; `TypeError`
on non-iterables. -/
def pyJoinComma (v : JVal) : Except Unit String :=
  match v with
  | .jArr xs => do
    let strs ← xs.mapM (fun x =>
      match x with
      | .jStr s => Except.ok s
      | _ => Except.error ())
    .ok (String.intercalate ", " strs)
  | .jStr s => .ok (String.intercalate ", " (s.toList.map (fun c => String.mk [c])))
  | .jObj fields => .ok (String.intercalate ", " (fields.map Prod.fst))
  | _ => .error ()

/-- Python's `str(v)` as it appears in the adapters' f-strings (numbers and
strings; containers do not occur there). -/
def jValStr : JVal → String
  | .jStr s => s
  | .jNum n => toString n
  | .jNull => "None"
  | .jBool b => if b then "True" else "False"
  | .jArr _ => "[...]"
  | .jObj _ => "{...}"

/-- Python's `for x in v` iteration: list elements, string characters, or
dict keys; `TypeError` on non-iterables. -/
def jIter (v : JVal) : Except Unit (List JVal) :=
  match v with
  | .jArr xs => .ok xs
  | .jStr s => .ok (s.toList.map (fun c => .jStr ⟨[c]⟩))
  | .jObj fields => .ok (fields.map (fun p => .jStr p.1))
  | _ => .error ()

/-- `try: body except Exception: return fallback` around a whole adapter
body. -/
def pyTry {α : Type} (body : Except Unit α) (fallback : α) : Except Unit α :=
  match body with
  | .ok r => .ok r
  | .error _ => .ok fallback

/-- The outcome of one JSON HTTP request: a raised request exception, or a
response with its status code and decoded body (`none` models a body
`.json()` raises on). -/
inductive HttpOutcome where
  | netError
  | response (status : Nat) (body : Option JVal)

/-- `session.get(…)` followed by `response.raise_for_status()` and
`response.json()`: the decoded payload, or an exception. -/
def fetchJsonRaise (out : HttpOutcome) : Except Unit JVal :=
  match out with
  | .netError => .error ()
  | .response status body =>
    if status ≥ 400 then .error ()
    else match body with
      | some payload => .ok payload
      | none => .error ()

/-- `session.get(…)` followed by `response.json()` with no status check. -/
def fetchJson (out : HttpOutcome) : Except Unit JVal :=
  match out with
  | .netError => .error ()
  | .response _ body =>
    match body with
    | some payload => .ok payload
    | none => .error ()

/-- The author-name list comprehension of `_parse_open_library_data`:
`[a.get("name") for a in authors if a and a.get("name")]` (the guard
evaluates `a.get` only after `a` proves truthy). -/
def collectAuthorNames : List JVal → Except Unit (List JVal)
  | [] => .ok []
  | a :: rest => do
    let keep ←
      if jTruthy a then do
        let v ← pyGetJ a "name"
        pure (jTruthy v)
      else pure false
    if keep then do
      let v ← pyGetJ a "name"
      let tail ← collectAuthorNames rest
      pure (v :: tail)
    else collectAuthorNames rest

/-- `_parse_open_library_data` over a raw JSON value, with every dynamic
attribute access that can raise made explicit. -/
def _parse_open_library_dataE (data : JVal) : Except Unit PyDict := do
  let title ← pyGetJ data "title"
  let authors0 ← pyGetJ data "authors"
  let authors := jOr authors0 (.jArr [])
  let author_name : Option String ←
    if jTruthy authors ∧ isJArr authors = true then do
      let names ← collectAuthorNames (jArrElems authors)
      if !names.isEmpty then do
        let s ← pyJoinComma (.jArr names)
        pure (some s)
      else pure none
    else pure none
  let publish_date ← pyGetJ data "publish_date"
  let publisher_list0 ← pyGetJ data "publishers"
  let publisher_list := jOr publisher_list0 (.jArr [])
  let publisher_name : JVal ←
    if jTruthy publisher_list ∧ isJArr publisher_list = true then do
      let first_pub := jOr (jHead (jArrElems publisher_list)) (.jObj [])
      pyGetJ first_pub "name"
    else pure .jNull
  let description ← pyGetJ data "notes"
  let classifications0 ← pyGetJ data "classifications"
  let classifications := jOr classifications0 (.jObj [])
  let dewey_list0 ← pyGetJ classifications "dewey_decimal_class"
  let dewey_list := jOr dewey_list0 (.jArr [])
  let dewey :=
    if jTruthy dewey_list ∧ isJArr dewey_list = true then jHead (jArrElems dewey_list)
    else .jNull
  let page_count ← pyGetJ data "number_of_pages"
  let physical_format ← pyGetJ data "physical_format"
  let edition_name ← pyGetJ data "edition_name"
  let languages0 ← pyGetJ data "languages"
  let languages := jOr languages0 (.jArr [])
  let language ←
    if jTruthy languages ∧ isJArr languages = true then
      pyGetJ (jHead (jArrElems languages)) "name"
    else pure .jNull
  let cover0 ← pyGetJ data "cover"
  let cover := jOr cover0 (.jObj [])
  let thumbnail_url ←
    if isJObj cover then do
      let m ← pyGetJ cover "medium"
      let s ← pyGetJ cover "small"
      pure (jOr m s)
    else pure JVal.jNull
  let cover_url ←
    if isJObj cover then do
      let l ← pyGetJ cover "large"
      let m ← pyGetJ cover "medium"
      pure (jOr l m)
    else pure JVal.jNull
  let title' ← unescapeIfTruthy title
  let author_val : JVal :=
    match author_name with
    | some s => .jStr s
    | none => .jNull
  let publisher' ← unescapeIfTruthy publisher_name
  let description' ← unescapeIfTruthy description
  pure [("title", title'), ("author", author_val), ("publish_date", publish_date),
        ("thumbnail_url", thumbnail_url), ("cover_url", cover_url),
        ("publisher", publisher'), ("description", description'),
        ("dewey_decimal", dewey), ("page_count", page_count),
        ("language", language), ("physical_format", physical_format),
        ("edition", edition_name)]

/-- `_lookup_open_library`: the `try` covers only the HTTP call, status
check and JSON decoding; the key-membership test and the parse run AFTER
the `except` clause and their exceptions propagate. -/
def _lookup_open_libraryE (isbn13 : String) (out : HttpOutcome) :
    Except Unit (Option PyDict) :=
  match fetchJsonRaise out with
  | .error _ => .ok none
  | .ok payload => do
    let mem ← pyContains payload ("ISBN:" ++ isbn13)
    if !mem then pure none
    else do
      let entry ← pyIndexStr payload ("ISBN:" ++ isbn13)
      let result ← _parse_open_library_dataE entry
      pure (some result)

/-- `_upgrade_google_books_image` on the string content: HTTPS, no edge
curl, zoom upgraded. -/
def upgradeGoogleImageStr (url : String) : String :=
  let u := strReplace url "http://" "https://"
  let u := strReplace u "&edge=curl" ""
  if strContainsList "zoom=1".toList u.toList then strReplace u "zoom=1" "zoom=0" else u

/-- `_upgrade_google_books_image` on a raw value: `None` for a falsy input,
string surgery on a string, `AttributeError` otherwise. -/
def upgradeGoogleImageE (v : JVal) : Except Unit JVal :=
  if !jTruthy v then .ok .jNull
  else match v with
    | .jStr s => .ok (.jStr (upgradeGoogleImageStr s))
    | _ => .error ()

/-- `_parse_google_books_item` over a raw JSON value. -/
def _parse_google_books_itemE (item : JVal) : Except Unit PyDict := do
  let info ← pyGetJD item "volumeInfo" (.jObj [])
  let image_links ← pyGetJD info "imageLinks" (.jObj [])
  let t1 ← pyGetJ image_links "thumbnail"
  let t2 ← pyGetJ image_links "smallThumbnail"
  let thumbnail ← upgradeGoogleImageE (jOr t1 t2)
  let title0 ← pyGetJD info "title" (.jStr "")
  let title ← pyUnescapeJ title0
  let authors ← pyGetJ info "authors"
  let author ←
    if jTruthy authors then do
      let joined ← pyJoinComma authors
      pure (JVal.jStr joined)
    else pure JVal.jNull
  let publish_date ← pyGetJ info "publishedDate"
  let publisher ← pyGetJ info "publisher"
  let description ← pyGetJ info "description"
  let page_count ← pyGetJ info "pageCount"
  let language ← pyGetJ info "language"
  let physical_format ← pyGetJ info "printType"
  pure [("title", title), ("author", author), ("publish_date", publish_date),
        ("thumbnail_url", thumbnail), ("cover_url", thumbnail),
        ("publisher", publisher), ("description", description),
        ("page_count", page_count), ("language", language),
        ("physical_format", physical_format)]

/-- `_lookup_google_books` (everything inside the `try`). -/
def _lookup_google_booksE (out : HttpOutcome) : Except Unit (Option PyDict) :=
  pyTry
    (do
      let data ← fetchJson out
      let hasItems ← pyContains data "items"
      if hasItems then do
        let items ← pyIndexStr data "items"
        if jTruthy items then do
          let first ← pyIndexZero items
          let r ← _parse_google_books_itemE first
          pure (some r)
        else pure none
      else pure none)
    none

/-- The cover-preferring scan of `_lookup_google_books_search`. -/
def findCoverItem : List JVal → Except Unit (Option JVal)
  | [] => .ok none
  | item :: rest => do
    let vi ← pyGetJD item "volumeInfo" (.jObj [])
    let il ← pyGetJ vi "imageLinks"
    if jTruthy il then pure (some item) else findCoverItem rest

/-- `_lookup_google_books_search` (everything inside the `try`). -/
def _lookup_google_books_searchE (out : HttpOutcome) : Except Unit (Option PyDict) :=
  pyTry
    (do
      let data ← fetchJson out
      let hasItems ← pyContains data "items"
      if hasItems then do
        let items ← pyIndexStr data "items"
        if jTruthy items then do
          let elems ← jIter items
          let found ← findCoverItem elems
          match found with
          | some item => do
            let r ← _parse_google_books_itemE item
            pure (some r)
          | none => do
            let first ← pyIndexZero items
            let r ← _parse_google_books_itemE first
            pure (some r)
        else pure none
      else pure none)
    none

/-- `_lookup_itunes` (everything inside the `try`, including
`raise_for_status`). -/
def _lookup_itunesE (out : HttpOutcome) : Except Unit (Option PyDict) :=
  pyTry
    (do
      let data ← fetchJsonRaise out
      let hasResults ← pyContains data "results"
      if !hasResults then pure none
      else do
        let results ← pyIndexStr data "results"
        if !jTruthy results then pure none
        else do
          let item ← pyIndexZero results
          let title ← pyGetJ item "trackName"
          let author_name ← pyGetJ item "artistName"
          let pd0 ← pyGetJ item "releaseDate"
          let publish_date ←
            if jTruthy pd0 then
              match pd0 with
              | .jStr s => pure (JVal.jStr ⟨beforeFirst ['T'] s.toList⟩)
              | _ => Except.error ()
            else pure pd0
          let description ← pyGetJ item "description"
          let a100 ← pyGetJ item "artworkUrl100"
          let a60 ← pyGetJ item "artworkUrl60"
          let base_url := jOr a100 a60
          let urls : JVal × JVal ←
            if jTruthy base_url then
              match base_url with
              | .jStr s =>
                pure (JVal.jStr (strReplace s "100x100bb" "200x200bb"),
                      JVal.jStr (strReplace s "100x100bb" "600x600bb"))
              | _ => Except.error ()
            else pure (base_url, JVal.jNull)
          let title' ← unescapeIfTruthy title
          let author' ← unescapeIfTruthy author_name
          let description' ← unescapeIfTruthy description
          pure (some [("title", title'), ("author", author'),
                ("publish_date", publish_date), ("thumbnail_url", urls.1),
                ("cover_url", urls.2), ("publisher", JVal.jNull),
                ("description", description'), ("dewey_decimal", JVal.jNull),
                ("page_count", JVal.jNull), ("language", JVal.jNull),
                ("physical_format", JVal.jStr "Ebook"), ("edition", JVal.jNull)]))
    none

/-- `_lookup_itunes_search` (everything inside the `try`). -/
def _lookup_itunes_searchE (out : HttpOutcome) : Except Unit (Option PyDict) :=
  pyTry
    (do
      let data ← fetchJson out
      let results ← pyGetJ data "results"
      if jTruthy results then do
        let results2 ← pyIndexStr data "results"
        let item ← pyIndexZero results2
        let base ← pyGetJ item "artworkUrl100"
        if jTruthy base then
          match base with
          | .jStr s => do
            let title ← pyGetJ item "trackName"
            let author ← pyGetJ item "artistName"
            pure (some [("title", title), ("author", author),
                  ("thumbnail_url", JVal.jStr (strReplace s "100x100bb" "200x200bb")),
                  ("cover_url", JVal.jStr (strReplace s "100x100bb" "600x600bb"))])
          | _ => Except.error ()
        else pure none
      else pure none)
    none

/-- The per-document scan of `_lookup_open_library_search`: the first doc
with a truthy `cover_i` becomes the result. -/
def olSearchDocLoop : List JVal → Except Unit (Option PyDict)
  | [] => .ok none
  | doc :: rest => do
    let cover_id ← pyGetJ doc "cover_i"
    if jTruthy cover_id then do
      let authors0 ← pyGetJ doc "author_name"
      let authors := jOr authors0 (.jArr [])
      let publishers0 ← pyGetJ doc "publisher"
      let publishers := jOr publishers0 (.jArr [])
      let title ← pyGetJ doc "title"
      let author ←
        if jTruthy authors then do
          let s ← pyJoinComma authors
          pure (JVal.jStr s)
        else pure JVal.jNull
      let fpy ← pyGetJ doc "first_publish_year"
      let publish_date := if jTruthy fpy then JVal.jStr (jValStr fpy) else JVal.jNull
      let publisher ← if jTruthy publishers then pyIndexZero publishers else pure JVal.jNull
      pure (some [("title", title), ("author", author),
            ("thumbnail_url",
             JVal.jStr ("https://covers.openlibrary.org/b/id/" ++ jValStr cover_id ++ "-M.jpg")),
            ("cover_url",
             JVal.jStr ("https://covers.openlibrary.org/b/id/" ++ jValStr cover_id ++ "-L.jpg")),
            ("publish_date", publish_date), ("publisher", publisher)])
    else olSearchDocLoop rest

/-- `_lookup_open_library_search` (everything inside the `try`); `out1` is
the structured search request, `out2` the general-query fallback request
made when the first returned no docs. -/
def _lookup_open_library_searchE (out1 out2 : HttpOutcome) :
    Except Unit (Option PyDict) :=
  pyTry
    (do
      let data ← fetchJson out1
      let docs0 ← pyGetJ data "docs"
      let docs := jOr docs0 (.jArr [])
      let docs ←
        if !jTruthy docs then do
          let data2 ← fetchJson out2
          let d2 ← pyGetJ data2 "docs"
          pure (jOr d2 (.jArr []))
        else pure docs
      let elems ← jIter docs
      olSearchDocLoop elems)
    none

/-- One HEAD response: status and the relevant headers (each `none` when
the header is absent). -/
structure HeadResp where
  status : Nat
  contentType : Option String
  contentLength : Option String

/-- The outcome of a HEAD request. -/
inductive HeadOutcome where
  | netError
  | resp (r : HeadResp)

/-- `_lookup_open_library_cover_direct` (everything inside the `try`). -/
def _lookup_open_library_cover_directE (isbn13 : String) (out : HeadOutcome) :
    Except Unit (Option String) :=
  pyTry
    (match out with
     | .netError => .error ()
     | .resp r =>
       if r.status = 200 ∧
           strContainsList "image".toList (pyLower (r.contentType.getD "")).toList then
         .ok (some ("https://covers.openlibrary.org/b/isbn/" ++ isbn13 ++ "-M.jpg?default=false"))
       else .ok none)
    none

/-- `_lookup_amazon_cover`: the ISBN-10 conversion happens outside the `try`
but cannot raise; `streamRead` is the byte count of the partial GET download
(`none` when that GET itself raises). -/
def _lookup_amazon_coverE (isbn13 : String) (out : HeadOutcome)
    (streamRead : Option Nat) : Except Unit (Option String) :=
  match isbn13_to_isbn10 isbn13 with
  | none => .ok none
  | some isbn10 =>
    let url := "https://images-na.ssl-images-amazon.com/images/P/" ++ isbn10 ++ ".01.LZZZZZZZ.jpg"
    pyTry
      (match out with
       | .netError => .error ()
       | .resp r =>
         if r.status = 200 then do
           let content_length : Int ←
             match r.contentLength with
             | none => pure 0
             | some s =>
               match pyParseInt s with
               | some n => pure n
               | none => Except.error ()
           if content_length > 1000 then pure (some url)
           else if content_length = 0 then
             match streamRead with
             | none => Except.error ()
             | some len => if len > 1000 then pure (some url) else pure none
           else pure none
         else pure none)
      none

/-- `_lookup_penguin_cover` (everything inside the `try`). -/
def _lookup_penguin_coverE (isbn13 : String) (out : HeadOutcome) :
    Except Unit (Option String) :=
  let url := "https://images.penguinrandomhouse.com/cover/" ++ isbn13
  pyTry
    (match out with
     | .netError => .error ()
     | .resp r =>
       if r.status = 200 ∧
           strContainsList "image".toList (pyLower (r.contentType.getD "")).toList then do
         let size : Int ←
           match r.contentLength with
           | none => pure 0
           | some s =>
             match pyParseInt s with
             | some n => pure n
             | none => Except.error ()
         if size > 1000 ∨ size = 0 then pure (some url)
         else pure none
       else pure none)
    none

/-- The search-fallback guard of the orchestrator:
`search_title and search_title != "Unknown"` on the accumulated record. -/
def searchGuard (m : Rec) : Bool :=
  match valToOptStr (recGetD m "title") with
  | some t => t ≠ "" && t ≠ "Unknown"
  | none => false

/-- A concrete world in which the Open Library ISBN lookup already yields a
cover image while Google Books yields only a title. -/
def exampleWorldOLCover : LookupWorld where
  open_library := fun _ => some [("thumbnail_url", Val.vStr "http://ol/cover.jpg")]
  google_books := fun _ => some [("title", Val.vStr "GB Title")]
  open_library_cover_direct := fun _ => none
  penguin_cover := fun _ => none
  amazon_cover := fun _ => none
  open_library_search := fun _ _ => none
  google_books_search := fun _ _ => none
  itunes_search := fun _ _ => none
  batch_chunk := fun _ => .httpError

/-- The cache test of `lookup_books_batch`'s first loop: a cached value
exists and is truthy. -/
def batchCacheHit (cache : CacheState Rec) (now : Int) (isbn : String) : Bool :=
  match cacheGet cache now ("isbn:" ++ isbn) with
  | some c => c ≠ []
  | none => false

/-- A concrete world in which the batch endpoint answers with a record
holding a title but no thumbnail, while every other source is empty. -/
def exampleWorldBatchNoThumb : LookupWorld where
  open_library := fun _ => none
  google_books := fun _ => none
  open_library_cover_direct := fun _ => none
  penguin_cover := fun _ => none
  amazon_cover := fun _ => none
  open_library_search := fun _ _ => none
  google_books_search := fun _ _ => none
  itunes_search := fun _ _ => none
  batch_chunk := fun _ => .ok [("9780306406157", [("title", Val.vStr "Batch Title")])]

/-- A concrete world in which the batch endpoint answers with a record
carrying a thumbnail and a title but a numeric `publish_date`. -/
def exampleWorldBatchYearInt : LookupWorld where
  open_library := fun _ => none
  google_books := fun _ => none
  open_library_cover_direct := fun _ => none
  penguin_cover := fun _ => none
  amazon_cover := fun _ => none
  open_library_search := fun _ _ => none
  google_books_search := fun _ _ => none
  itunes_search := fun _ _ => none
  batch_chunk := fun _ => .ok [("9780306406157",
    [("thumbnail_url", Val.vStr "http://x/t.jpg"), ("title", Val.vStr "T"),
     ("publish_date", Val.vInt 2023)])]

/-! ## Shared lemmas about association-list lookup and update -/

theorem lookup_cons {κ β : Type} [BEq κ] (k : κ) (p : κ × β) (l : List (κ × β)) :
    List.lookup k (p :: l) = if k == p.1 then some p.2 else List.lookup k l := by
  rcases p with ⟨a, b⟩
  cases h : k == a <;> simp [List.lookup, h]

theorem beq_symm_false {κ : Type} [BEq κ] [LawfulBEq κ] {a b : κ}
    (h : (a == b) = false) : (b == a) = false :=
  beq_eq_false_iff_ne.mpr (fun hh => (beq_eq_false_iff_ne.mp h) hh.symm)

theorem alistSet_of_mem {κ β : Type} [BEq κ] (r : List (κ × β)) (k : κ) (v : β)
    (hin : r.any (fun p => p.1 == k) = true) :
    alistSet r k v = r.map (fun p => if p.1 == k then (k, v) else p) := by
  unfold alistSet; rw [if_pos hin]

theorem alistSet_of_not_mem {κ β : Type} [BEq κ] (r : List (κ × β)) (k : κ) (v : β)
    (hnot : r.any (fun p => p.1 == k) = false) :
    alistSet r k v = r ++ [(k, v)] := by
  unfold alistSet; rw [if_neg (by simp [hnot])]

theorem lookup_map_set {κ β : Type} [BEq κ] [LawfulBEq κ]
    (r : List (κ × β)) (k : κ) (v : β) (hin : r.any (fun p => p.1 == k) = true) :
    List.lookup k (r.map (fun p => if p.1 == k then (k, v) else p)) = some v := by
  induction r with
  | nil => simp at hin
  | cons p rest ih =>
    cases hp : (p.1 == k) with
    | true =>
      rw [List.map_cons, if_pos hp, lookup_cons]
      simp
    | false =>
      simp only [List.any_cons, hp, Bool.false_or] at hin
      rw [List.map_cons, if_neg (by simp [hp]), lookup_cons,
        if_neg (by simp [beq_symm_false hp])]
      exact ih hin

theorem lookup_append_single {κ β : Type} [BEq κ] [LawfulBEq κ]
    (r : List (κ × β)) (k : κ) (v : β) (hnot : r.any (fun p => p.1 == k) = false) :
    List.lookup k (r ++ [(k, v)]) = some v := by
  induction r with
  | nil => simp [List.lookup]
  | cons p rest ih =>
    simp only [List.any_cons, Bool.or_eq_false_iff] at hnot
    rw [List.cons_append, lookup_cons, if_neg (by simp [beq_symm_false hnot.1])]
    exact ih hnot.2

theorem lookup_alistSet_self {κ β : Type} [BEq κ] [LawfulBEq κ]
    (r : List (κ × β)) (k : κ) (v : β) :
    List.lookup k (alistSet r k v) = some v := by
  cases hin : r.any (fun p => p.1 == k) with
  | true => rw [alistSet_of_mem r k v hin]; exact lookup_map_set r k v hin
  | false => rw [alistSet_of_not_mem r k v hin]; exact lookup_append_single r k v hin

theorem lookup_map_set_ne {κ β : Type} [BEq κ] [LawfulBEq κ]
    (r : List (κ × β)) (k k' : κ) (v : β) (h : k' ≠ k) :
    List.lookup k' (r.map (fun p => if p.1 == k then (k, v) else p)) =
      List.lookup k' r := by
  have hb : (k' == k) = false := beq_eq_false_iff_ne.mpr h
  induction r with
  | nil => simp
  | cons p rest ih =>
    cases hp : (p.1 == k) with
    | true =>
      have hpk : p.1 = k := eq_of_beq hp
      rw [List.map_cons, if_pos hp, lookup_cons, lookup_cons, hpk]
      simp only [hb, if_false]
      exact ih
    | false =>
      rw [List.map_cons, if_neg (by simp [hp]), lookup_cons, lookup_cons]
      cases hkp : (k' == p.1) with
      | true => rfl
      | false => exact ih

theorem lookup_append_single_ne {κ β : Type} [BEq κ] [LawfulBEq κ]
    (r : List (κ × β)) (k k' : κ) (v : β) (h : k' ≠ k) :
    List.lookup k' (r ++ [(k, v)]) = List.lookup k' r := by
  have hb : (k' == k) = false := beq_eq_false_iff_ne.mpr h
  induction r with
  | nil => simp [List.lookup, hb]
  | cons p rest ih =>
    rw [List.cons_append, lookup_cons, lookup_cons]
    cases hkp : (k' == p.1) with
    | true => rfl
    | false => exact ih

theorem lookup_alistSet_ne {κ β : Type} [BEq κ] [LawfulBEq κ]
    (r : List (κ × β)) (k k' : κ) (v : β) (h : k' ≠ k) :
    List.lookup k' (alistSet r k v) = List.lookup k' r := by
  cases hin : r.any (fun p => p.1 == k) with
  | true => rw [alistSet_of_mem r k v hin]; exact lookup_map_set_ne r k k' v h
  | false => rw [alistSet_of_not_mem r k v hin]; exact lookup_append_single_ne r k k' v h

theorem alistSet_alistSet {κ β : Type} [BEq κ] [LawfulBEq κ]
    (r : List (κ × β)) (k : κ) (v v' : β) :
    alistSet (alistSet r k v) k v' = alistSet r k v' := by
  cases hin : r.any (fun p => p.1 == k) with
  | true =>
    have hin2 : (r.map (fun p => if p.1 == k then (k, v) else p)).any
        (fun p => p.1 == k) = true := by
      rw [List.any_eq_true] at hin ⊢
      obtain ⟨p, hp, hpk⟩ := hin
      exact ⟨(k, v), List.mem_map.mpr ⟨p, hp, by rw [if_pos hpk]⟩, by simp⟩
    rw [alistSet_of_mem r k v hin, alistSet_of_mem _ k v' hin2,
      alistSet_of_mem r k v' hin, List.map_map]
    apply List.map_congr_left
    intro p _
    by_cases hpk : (p.1 == k) = true
    · simp [Function.comp, hpk]
    · simp [Function.comp, hpk]
  | false =>
    have hin2 : (r ++ [(k, v)]).any (fun p => p.1 == k) = true := by
      simp [List.any_append]
    rw [alistSet_of_not_mem r k v hin, alistSet_of_mem _ k v' hin2,
      alistSet_of_not_mem r k v' hin, List.map_append]
    have hr : r.map (fun p => if p.1 == k then (k, v') else p) = r := by
      have := List.map_congr_left (l := r)
        (f := fun p : κ × β => if p.1 == k then (k, v') else p) (g := id)
        (fun p hp => by
          have hf : (p.1 == k) = false := by
            cases hh : (p.1 == k)
            · rfl
            · have hT : (r.any fun q => q.1 == k) = true :=
                List.any_eq_true.mpr ⟨p, hp, hh⟩
              rw [hin] at hT
              exact absurd hT (by simp)
          simp [hf])
      simpa using this
    rw [hr]
    simp

/-! ## Lemmas about `_merge_metadata` -/

theorem merge_step_lookup_ne (t : Rec) (kv : String × Val) (k : String)
    (hk : kv.1 ≠ k) :
    List.lookup k
      (if pyTruthy kv.2 && !isBlankStr kv.2 && !pyTruthy (recGetD t kv.1) then
        alistSet t kv.1 kv.2
      else t) = List.lookup k t := by
  split
  · exact lookup_alistSet_ne t kv.1 k kv.2 (fun h => hk h.symm)
  · rfl

theorem merge_fold_not_in (src : Rec) :
    ∀ (k : String), (∀ kv ∈ src, kv.1 ≠ k) → ∀ t : Rec,
    List.lookup k (_merge_metadata t (some src)) = List.lookup k t := by
  induction src with
  | nil => intro k _ t; rfl
  | cons kv rest ih =>
    intro k hnotin t
    have hk : kv.1 ≠ k := hnotin kv (by simp)
    have hrest : ∀ p ∈ rest, p.1 ≠ k := fun p hp => hnotin p (by simp [hp])
    show List.lookup k
      (_merge_metadata
        (if pyTruthy kv.2 && !isBlankStr kv.2 && !pyTruthy (recGetD t kv.1) then
          alistSet t kv.1 kv.2
        else t) (some rest)) = List.lookup k t
    rw [ih k hrest, merge_step_lookup_ne t kv k hk]

theorem merge_fold_lookup (src : Rec) :
    ∀ (k : String), nodupKeys src → ∀ t : Rec,
    List.lookup k (_merge_metadata t (some src)) =
      (match List.lookup k src with
       | some v =>
         if pyTruthy v && !isBlankStr v && !pyTruthy (recGetD t k) then some v
         else List.lookup k t
       | none => List.lookup k t) := by
  induction src with
  | nil => intro k _ t; rfl
  | cons kv rest ih =>
    intro k hnd t
    have hnd1 : (kv.1 :: rest.map Prod.fst).Nodup := by simpa [nodupKeys] using hnd
    have hnd' : nodupKeys rest := (List.nodup_cons.mp hnd1).2
    have hk0 : kv.1 ∉ rest.map Prod.fst := (List.nodup_cons.mp hnd1).1
    by_cases hkk : kv.1 = k
    · subst hkk
      have hlk : List.lookup kv.1 (kv :: rest) = some kv.2 := by
        rw [lookup_cons]; simp
      rw [hlk]
      have hnotin : ∀ p ∈ rest, p.1 ≠ kv.1 := by
        intro p hp heq
        exact hk0 (heq ▸ List.mem_map_of_mem Prod.fst hp)
      show List.lookup kv.1
        (_merge_metadata
          (if pyTruthy kv.2 && !isBlankStr kv.2 && !pyTruthy (recGetD t kv.1) then
            alistSet t kv.1 kv.2
          else t) (some rest)) = _
      rw [merge_fold_not_in rest kv.1 hnotin]
      show List.lookup kv.1
        (if pyTruthy kv.2 && !isBlankStr kv.2 && !pyTruthy (recGetD t kv.1) then
          alistSet t kv.1 kv.2
        else t) =
        if pyTruthy kv.2 && !isBlankStr kv.2 && !pyTruthy (recGetD t kv.1) then
          some kv.2
        else List.lookup kv.1 t
      split
      · exact lookup_alistSet_self t kv.1 kv.2
      · rfl
    · have hkb : (k == kv.1) = false :=
        beq_eq_false_iff_ne.mpr (fun h => hkk h.symm)
      have hlk : List.lookup k (kv :: rest) = List.lookup k rest := by
        rw [lookup_cons, if_neg (by simp [hkb])]
      rw [hlk]
      show List.lookup k
        (_merge_metadata
          (if pyTruthy kv.2 && !isBlankStr kv.2 && !pyTruthy (recGetD t kv.1) then
            alistSet t kv.1 kv.2
          else t) (some rest)) = _
      rw [ih k hnd']
      have hstep := merge_step_lookup_ne t kv k hkk
      have hgd : recGetD
          (if pyTruthy kv.2 && !isBlankStr kv.2 && !pyTruthy (recGetD t kv.1) then
            alistSet t kv.1 kv.2
          else t) k = recGetD t k := by
        show (List.lookup k
          (if pyTruthy kv.2 && !isBlankStr kv.2 && !pyTruthy (recGetD t kv.1) then
            alistSet t kv.1 kv.2
          else t)).getD Val.vNone = (List.lookup k t).getD Val.vNone
        rw [hstep]
      cases hr : List.lookup k rest with
      | none => exact hstep
      | some v =>
        show (if pyTruthy v && !isBlankStr v &&
            !pyTruthy (recGetD
              (if pyTruthy kv.2 && !isBlankStr kv.2 && !pyTruthy (recGetD t kv.1) then
                alistSet t kv.1 kv.2
              else t) k) then some v
          else List.lookup k
            (if pyTruthy kv.2 && !isBlankStr kv.2 && !pyTruthy (recGetD t kv.1) then
              alistSet t kv.1 kv.2
            else t)) =
          (if pyTruthy v && !isBlankStr v && !pyTruthy (recGetD t k) then some v
           else List.lookup k t)
        rw [hgd, hstep]

/-- C2 (amended): `_merge_metadata` fills each target field whose current
value is falsy with the source's value for that field whenever the source
value is truthy and not a whitespace-only string; a field whose target value
is truthy is never overwritten; a source entry that is falsy (`None`, `""`,
`0`) or a whitespace-only string never fills anything; a `None` source
leaves the target unchanged. -/
theorem merge_metadata_fill_spec (t src : Rec) (k : String) (v : Val)
    (hnd : nodupKeys src) :
    (_merge_metadata t none = t) ∧
    (pyTruthy (recGetD t k) = true →
      recGetD (_merge_metadata t (some src)) k = recGetD t k) ∧
    (pyTruthy (recGetD t k) = false → List.lookup k src = some v →
      pyTruthy v = true → isBlankStr v = false →
      recGetD (_merge_metadata t (some src)) k = v) ∧
    (List.lookup k src = some v → (pyTruthy v = false ∨ isBlankStr v = true) →
      recGetD (_merge_metadata t (some src)) k = recGetD t k) ∧
    (List.lookup k src = none →
      recGetD (_merge_metadata t (some src)) k = recGetD t k) := by
  have h := merge_fold_lookup src k hnd t
  refine ⟨rfl, ?_, ?_, ?_, ?_⟩
  · intro htr
    have h2 : List.lookup k (_merge_metadata t (some src)) = List.lookup k t := by
      rw [h]
      cases hsrc : List.lookup k src with
      | none => rfl
      | some w =>
        show (if pyTruthy w && !isBlankStr w && !pyTruthy (recGetD t k) then some w
          else List.lookup k t) = List.lookup k t
        rw [htr]
        simp
    show (List.lookup k (_merge_metadata t (some src))).getD Val.vNone =
      (List.lookup k t).getD Val.vNone
    rw [h2]
  · intro hft hsrc htv hbl
    have h3 : List.lookup k (_merge_metadata t (some src)) = some v := by
      rw [h, hsrc]
      show (if pyTruthy v && !isBlankStr v && !pyTruthy (recGetD t k) then some v
        else List.lookup k t) = some v
      rw [hft, htv, hbl]
      simp
    show (List.lookup k (_merge_metadata t (some src))).getD Val.vNone = v
    rw [h3]
    rfl
  · intro hsrc hfalsy
    have h4 : List.lookup k (_merge_metadata t (some src)) = List.lookup k t := by
      rw [h, hsrc]
      show (if pyTruthy v && !isBlankStr v && !pyTruthy (recGetD t k) then some v
        else List.lookup k t) = List.lookup k t
      rcases hfalsy with hf | hb
      · rw [hf]; simp
      · rw [hb]; simp
    show (List.lookup k (_merge_metadata t (some src))).getD Val.vNone =
      (List.lookup k t).getD Val.vNone
    rw [h4]
  · intro hsrc
    have h5 : List.lookup k (_merge_metadata t (some src)) = List.lookup k t := by
      rw [h, hsrc]
    show (List.lookup k (_merge_metadata t (some src))).getD Val.vNone =
      (List.lookup k t).getD Val.vNone
    rw [h5]

/-- C2 witness: a concrete merge. The target's empty `author` field is
filled from the source; the populated `title` field is kept. -/
theorem merge_metadata_fill_spec_witness :
    recGetD (_merge_metadata [("title", Val.vStr "A"), ("author", Val.vStr "")]
      (some [("author", Val.vStr "B"), ("title", Val.vStr "C")])) "author" =
      Val.vStr "B" :=
  (merge_metadata_fill_spec [("title", Val.vStr "A"), ("author", Val.vStr "")]
    [("author", Val.vStr "B"), ("title", Val.vStr "C")] "author" (Val.vStr "B")
    (by decide)).2.2.1 (by decide) (by decide) (by decide) (by decide)

/-- C2 counterexample: the integer source value `0` is neither `None` nor a
whitespace-only string — non-empty in the claim's sense — and the target's
`page_count` field is empty, yet `_merge_metadata` does not fill it (the
code tests Python truthiness, and `0` is falsy). -/
theorem merge_metadata_counterexample_int_zero :
    (Val.vInt 0 ≠ Val.vNone) ∧ (∀ s : String, Val.vInt 0 ≠ Val.vStr s) ∧
    pyTruthy (recGetD ([] : Rec) "page_count") = false ∧
    _merge_metadata ([] : Rec) (some [("page_count", Val.vInt 0)]) = ([] : Rec) ∧
    recGetD (_merge_metadata ([] : Rec) (some [("page_count", Val.vInt 0)]))
      "page_count" = Val.vNone :=
  ⟨by decide, fun s h => Val.noConfusion h, by decide, by decide, by decide⟩

theorem lookup_alistSet {κ β : Type} [BEq κ] [LawfulBEq κ]
    (r : List (κ × β)) (k k' : κ) (v : β) :
    List.lookup k' (alistSet r k v) =
      if k' == k then some v else List.lookup k' r := by
  cases h : (k' == k) with
  | true =>
    have hk : k' = k := eq_of_beq h
    subst hk
    rw [if_pos rfl]
    exact lookup_alistSet_self r k' v
  | false =>
    rw [if_neg (by simp)]
    exact lookup_alistSet_ne r k k' v (beq_eq_false_iff_ne.mp h)

/-- C4: the SQLite TTL cache. After `set(key, value, ttl)` at time `tset`, a
`get(key)` strictly before `tset + ttl` returns the value (JSON round trip
modelled as the identity) and a `get` at or after `tset + ttl` returns
`None`; a key never set reads as `None`; a second `set` to the same key
replaces the previous value and expiry outright, leaving exactly the state
the second `set` alone would have produced. -/
theorem sqlite_cache_ttl_spec {α : Type} (st : CacheState α) (k : String) (v : α)
    (ttl tset tget : Int) :
    (tget < tset + ttl → cacheGet (cacheSet st tset k v ttl) tget k = some v) ∧
    (tset + ttl ≤ tget → cacheGet (cacheSet st tset k v ttl) tget k = none) ∧
    (∀ (k' : String) (now : Int), cacheGet ([] : CacheState α) now k' = none) ∧
    (∀ (v' : α) (ttl' tset' : Int),
      cacheSet (cacheSet st tset k v ttl) tset' k v' ttl' = cacheSet st tset' k v' ttl') := by
  refine ⟨?_, ?_, ?_, ?_⟩
  · intro h
    unfold cacheGet cacheSet
    rw [lookup_alistSet_self]
    exact if_pos h
  · intro h
    unfold cacheGet cacheSet
    rw [lookup_alistSet_self]
    exact if_neg (not_lt.mpr h)
  · intro k' now; rfl
  · intro v' ttl' tset'
    unfold cacheSet
    exact alistSet_alistSet st k ⟨v, tset + ttl⟩ ⟨v', tset' + ttl'⟩

theorem lookup_updateJob (st : JobQueueState) (id id' : String) (f : Job → Job) :
    List.lookup id' (updateJob st id f) =
      if id' = id then (List.lookup id' st).map f else List.lookup id' st := by
  induction st with
  | nil => unfold updateJob; by_cases h : id' = id <;> simp [h, List.lookup]
  | cons p rest ih =>
    show List.lookup id' ((if p.1 == id then (p.1, f p.2) else p) :: updateJob rest id f) = _
    by_cases hpid : (p.1 == id) = true
    · rw [if_pos hpid, lookup_cons, lookup_cons]
      by_cases hidp : (id' == p.1) = true
      · have h1 : id' = id := (eq_of_beq hidp).trans (eq_of_beq hpid)
        rw [if_pos hidp, if_pos hidp, if_pos h1]
        rfl
      · rw [if_neg hidp, if_neg hidp, ih]
    · rw [if_neg hpid, lookup_cons, lookup_cons]
      by_cases hidp : (id' == p.1) = true
      · have hne : id' ≠ id := by
          intro h
        
          exact hpid (by rw [← eq_of_beq hidp, ← h] at hpid ⊢; exact beq_self_eq_true id')
        rw [if_pos hidp, if_pos hidp, if_neg hne]
      · rw [if_neg hidp, if_neg hidp, ih]

theorem applyJobOp_preserves_progress (st : JobQueueState) (op : JobOp)
    (hinv : ∀ (id : String) (j : Job), List.lookup id st = some j →
      0 ≤ j.progress ∧ j.progress ≤ 100) :
    ∀ (id : String) (j : Job), List.lookup id (applyJobOp st op) = some j →
      0 ≤ j.progress ∧ j.progress ≤ 100 := by
  intro id j hj
  cases op with
  | create jid fn now =>
    rw [show applyJobOp st (.create jid fn now) = create_job st jid fn now from rfl,
      create_job, lookup_alistSet] at hj
    by_cases h : (id == jid) = true
    · rw [if_pos h] at hj
      cases hj
      constructor <;> simp
    · rw [if_neg (by simp [h])] at hj
      exact hinv id j hj
  | submit jid fn now =>
    rw [show applyJobOp st (.submit jid fn now) = create_job st jid fn now from rfl,
      create_job, lookup_alistSet] at hj
    by_cases h : (id == jid) = true
    · rw [if_pos h] at hj
      cases hj
      constructor <;> simp
    · rw [if_neg (by simp [h])] at hj
      exact hinv id j hj
  | start jid now =>
    rw [show applyJobOp st (.start jid now) = start_job st jid now from rfl,
      start_job, lookup_updateJob] at hj
    by_cases h : id = jid
    · rw [if_pos h] at hj
      rcases Option.map_eq_some'.mp hj with ⟨j0, hj0, rfl⟩
      exact hinv id j0 hj0
    · rw [if_neg h] at hj
      exact hinv id j hj
  | updateProgress jid p =>
    rw [show applyJobOp st (.updateProgress jid p) = update_progress st jid p from rfl,
      update_progress, lookup_updateJob] at hj
    by_cases h : id = jid
    · rw [if_pos h] at hj
      rcases Option.map_eq_some'.mp hj with ⟨j0, _, rfl⟩
      constructor <;> simp
    · rw [if_neg h] at hj
      exact hinv id j hj
  | complete jid res now =>
    rw [show applyJobOp st (.complete jid res now) = complete_job st jid res now from rfl,
      complete_job, lookup_updateJob] at hj
    by_cases h : id = jid
    · rw [if_pos h] at hj
      rcases Option.map_eq_some'.mp hj with ⟨j0, _, rfl⟩
      constructor <;> simp
    · rw [if_neg h] at hj
      exact hinv id j hj
  | fail jid err now =>
    rw [show applyJobOp st (.fail jid err now) = fail_job st jid err now from rfl,
      fail_job, lookup_updateJob] at hj
    by_cases h : id = jid
    · rw [if_pos h] at hj
      rcases Option.map_eq_some'.mp hj with ⟨j0, hj0, rfl⟩
      exact hinv id j0 hj0
    · rw [if_neg h] at hj
      exact hinv id j hj

theorem applyJobOps_preserves_progress (ops : List JobOp) :
    ∀ (st : JobQueueState),
    (∀ (id : String) (j : Job), List.lookup id st = some j →
      0 ≤ j.progress ∧ j.progress ≤ 100) →
    ∀ (id : String) (j : Job), List.lookup id (applyJobOps st ops) = some j →
      0 ≤ j.progress ∧ j.progress ≤ 100 := by
  induction ops with
  | nil => intro st hinv id j hj; exact hinv id j hj
  | cons op rest ih =>
    intro st hinv id j hj
    exact ih (applyJobOp st op) (applyJobOp_preserves_progress st op hinv) id j hj

/-- C9: the job progress invariant. Over every sequence of `JobQueue`
operations starting from the empty queue, every stored job's progress lies
in [0, 100]; `create_job` stores progress 0, `update_progress` stores the
supplied integer clamped into [0, 100], and `complete_job` stores exactly
100. -/
theorem job_queue_progress_spec :
    (∀ (ops : List JobOp) (id : String) (j : Job),
      List.lookup id (applyJobOps [] ops) = some j →
      0 ≤ j.progress ∧ j.progress ≤ 100) ∧
    (∀ (st : JobQueueState) (id fn now : String),
      (List.lookup id (create_job st id fn now)).map Job.progress = some 0) ∧
    (∀ (st : JobQueueState) (id : String) (p : Int) (j : Job),
      List.lookup id st = some j →
      (List.lookup id (update_progress st id p)).map Job.progress =
        some (max 0 (min 100 p))) ∧
    (∀ (st : JobQueueState) (id : String) (res : Option String) (now : String) (j : Job),
      List.lookup id st = some j →
      (List.lookup id (complete_job st id res now)).map Job.progress = some 100) := by
  refine ⟨?_, ?_, ?_, ?_⟩
  · intro ops id j hj
    exact applyJobOps_preserves_progress ops []
      (fun id j hj => by simp [List.lookup] at hj) id j hj
  · intro st id fn now
    rw [create_job, lookup_alistSet, if_pos (by simp)]
    rfl
  · intro st id p j hj
    rw [update_progress, lookup_updateJob, if_pos rfl, hj]
    rfl
  · intro st id res now j hj
    rw [complete_job, lookup_updateJob, if_pos rfl, hj]
    rfl

theorem pySorted_perm {α β : Type} (key : α → β) (le : β → β → Bool)
    (reverse : Bool) (xs : List α) : (pySorted key le reverse xs).Perm xs := by
  unfold pySorted
  split
  · exact List.mergeSort_perm xs _
  · exact List.mergeSort_perm xs _

theorem pySortedE_ok_perm {β : Type} (keyE : Rec → Except Unit β) (dflt : β)
    (le : β → β → Bool) (reverse : Bool) (books l : List Rec)
    (h : pySortedE keyE dflt le reverse books = .ok l) : l.Perm books := by
  unfold pySortedE at h
  split at h
  · injection h with h
    subst h
    exact pySorted_perm _ _ _ _
  · exact absurd h (by simp)

theorem pySortedValE_ok_perm (key : Rec → Val) (reverse : Bool) (books l : List Rec)
    (h : pySortedValE key reverse books = .ok l) : l.Perm books := by
  unfold pySortedValE at h
  split at h
  · injection h with h
    subst h
    exact pySorted_perm _ _ _ _
  · exact absurd h (by simp)

theorem sort_by_reading_date_ok_perm (books records : List Rec) (reverse : Bool)
    (l : List Rec) (h : sort_by_reading_date books records reverse = .ok l) :
    l.Perm books := by
  unfold sort_by_reading_date at h
  cases hm : recordsByBookE records with
  | error e => rw [hm] at h; exact absurd h (by simp)
  | ok m => rw [hm] at h; exact pySortedValE_ok_perm _ _ _ _ h

theorem lookup_mem {κ β : Type} [BEq κ] [LawfulBEq κ] {k : κ} {v : β} :
    ∀ {l : List (κ × β)}, List.lookup k l = some v → (k, v) ∈ l := by
  intro l
  induction l with
  | nil => intro h; simp [List.lookup] at h
  | cons p t ih =>
    intro h
    rw [lookup_cons] at h
    split at h
    · next hb =>
      injection h with h
      subst h
      have : k = p.1 := eq_of_beq hb
      rw [this]
      exact List.mem_cons_self _ _
    · exact List.mem_cons_of_mem _ (ih h)

theorem alistSet_mem {κ β : Type} [BEq κ] (m : List (κ × β)) (k : κ) (v : β) :
    ∀ p ∈ alistSet m k v, p = (k, v) ∨ p ∈ m := by
  intro p hp
  unfold alistSet at hp
  split at hp
  · obtain ⟨q, hq, hqe⟩ := List.mem_map.mp hp
    by_cases hqk : (q.1 == k) = true
    · rw [if_pos hqk] at hqe
      exact Or.inl hqe.symm
    · rw [if_neg hqk] at hqe
      exact Or.inr (hqe ▸ hq)
  · rcases List.mem_append.mp hp with h | h
    · exact Or.inr h
    · exact Or.inl (by simpa using h)

theorem bookGetStrE_ok (b : Rec) (k : String) (h : okStrField b k = true) :
    ∃ s, bookGetStrE b k = .ok s := by
  unfold okStrField recGetD at h
  unfold bookGetStrE
  cases hl : List.lookup k b with
  | none => exact ⟨"", rfl⟩
  | some v =>
    rw [hl] at h
    cases v with
    | vStr s => exact ⟨s, rfl⟩
    | vNone => exact ⟨"", rfl⟩
    | vInt n =>
      have hn : n = 0 := by simpa [strOrFalsy] using h
      subst hn
      exact ⟨"", by simp⟩

theorem bookGetOrEmpty_str (b : Rec) (k : String) (h : okStrField b k = true) :
    ∃ s, bookGetOrEmpty b k = .vStr s := by
  unfold okStrField recGetD at h
  unfold bookGetOrEmpty
  cases hl : List.lookup k b with
  | none => exact ⟨"", rfl⟩
  | some v =>
    rw [hl] at h
    cases v with
    | vStr s =>
      by_cases hs : s = ""
      · exact ⟨"", by dsimp only; rw [if_neg (by simp [pyTruthy, hs])]⟩
      · exact ⟨s, by dsimp only; rw [if_pos (by simp [pyTruthy, hs])]⟩
    | vNone => exact ⟨"", rfl⟩
    | vInt n =>
      have hn : n = 0 := by simpa [strOrFalsy] using h
      subst hn
      exact ⟨"", by simp [pyTruthy]⟩

theorem bookGetOrEmpty_str_present (r : Rec) (k : String)
    (h : strIfPresent r k = true) : ∃ s, bookGetOrEmpty r k = .vStr s := by
  unfold strIfPresent at h
  unfold bookGetOrEmpty
  cases hl : List.lookup k r with
  | none => exact ⟨"", rfl⟩
  | some v =>
    rw [hl] at h
    cases v with
    | vStr s =>
      by_cases hs : s = ""
      · exact ⟨"", by dsimp only; rw [if_neg (by simp [pyTruthy, hs])]⟩
      · exact ⟨s, by dsimp only; rw [if_pos (by simp [pyTruthy, hs])]⟩
    | vNone => exact absurd h (by simp)
    | vInt n => exact absurd h (by simp)

theorem strIfPresent_getDD (r : Rec) (k : String) (h : strIfPresent r k = true) :
    ∃ s, recGetDD r k (.vStr "") = .vStr s := by
  unfold strIfPresent at h
  unfold recGetDD
  cases hl : List.lookup k r with
  | none => exact ⟨"", rfl⟩
  | some v =>
    rw [hl] at h
    cases v with
    | vStr s => exact ⟨s, rfl⟩
    | vNone => exact absurd h (by simp)
    | vInt n => exact absurd h (by simp)

theorem authorSortKeyE_ok (b : Rec) (ht : okStrField b "title" = true)
    (ha : okStrField b "author" = true) : (authorSortKeyE b).isOk = true := by
  obtain ⟨sa, hsa⟩ := bookGetStrE_ok b "author" ha
  obtain ⟨st, hst⟩ := bookGetStrE_ok b "title" ht
  unfold authorSortKeyE
  rw [hsa, hst]
  rfl

theorem titleSortKeyE_ok (b : Rec) (ht : okStrField b "title" = true)
    (ha : okStrField b "author" = true) : (titleSortKeyE b).isOk = true := by
  obtain ⟨sa, hsa⟩ := bookGetStrE_ok b "author" ha
  obtain ⟨st, hst⟩ := bookGetStrE_ok b "title" ht
  unfold titleSortKeyE
  rw [hsa, hst]
  rfl

theorem yearSortKeyE_ok (b : Rec) (ht : okStrField b "title" = true) :
    (yearSortKeyE b).isOk = true := by
  obtain ⟨st, hst⟩ := bookGetStrE_ok b "title" ht
  unfold yearSortKeyE
  rw [hst]
  rfl

theorem deweySortKeyE_ok (b : Rec) (ht : okStrField b "title" = true) :
    (deweySortKeyE b).isOk = true := by
  obtain ⟨st, hst⟩ := bookGetStrE_ok b "title" ht
  unfold deweySortKeyE
  rw [hst]
  rfl

theorem recordsByBookAux_ok (all : List Rec)
    (hall : ∀ r ∈ all, strIfPresent r "start_date" = true) :
    ∀ (l : List Rec) (m0 : List (Val × Rec)),
    (∀ r ∈ l, r ∈ all) → (∀ p ∈ m0, p.2 ∈ all) →
    ∃ m, recordsByBookAux l m0 = .ok m ∧ ∀ p ∈ m, p.2 ∈ all := by
  intro l
  induction l with
  | nil => intro m0 _ hm0; exact ⟨m0, rfl, hm0⟩
  | cons r t ih =>
    intro m0 hl hm0
    have hr : r ∈ all := hl r (List.mem_cons_self r t)
    have ht : ∀ x ∈ t, x ∈ all := fun x hx => hl x (List.mem_cons_of_mem r hx)
    have hmset : ∀ p ∈ alistSet m0 (recGetD r "book_id") r, p.2 ∈ all := by
      intro p hp
      rcases alistSet_mem m0 _ r p hp with he | hin
      · rw [he]; exact hr
      · exact hm0 p hin
    unfold recordsByBookAux
    dsimp only
    by_cases hid : pyTruthy (recGetD r "book_id") = true
    · rw [if_pos hid]
      cases hlk : List.lookup (recGetD r "book_id") m0 with
      | none => exact ih _ ht hmset
      | some existing =>
        dsimp only
        have hex : existing ∈ all := hm0 _ (lookup_mem hlk)
        obtain ⟨s1, hs1⟩ := strIfPresent_getDD r "start_date" (hall r hr)
        obtain ⟨s2, hs2⟩ := strIfPresent_getDD existing "start_date" (hall existing hex)
        rw [hs1, hs2]
        simp only [pyGtE]
        cases hcmp : decide (s2 < s1) with
        | true => exact ih _ ht hmset
        | false => exact ih _ ht hm0
    · rw [if_neg hid]
      exact ih _ ht hm0

theorem readingDateSortKey_str (m : List (Val × Rec)) (b : Rec)
    (hm : ∀ p ∈ m, strIfPresent p.2 "start_date" = true)
    (hb : okStrField b "created_at" = true) :
    ∃ s, readingDateSortKey m b = .vStr s := by
  unfold readingDateSortKey
  dsimp only
  by_cases hid : pyTruthy (recGetD b "id") = true
  · rw [if_pos hid]
    cases hlk : List.lookup (recGetD b "id") m with
    | none => exact bookGetOrEmpty_str b "created_at" hb
    | some record =>
      exact bookGetOrEmpty_str_present record "start_date" (hm _ (lookup_mem hlk))
  · rw [if_neg hid]
    exact bookGetOrEmpty_str b "created_at" hb

theorem pySortedE_ok_of_keys {β : Type} (keyE : Rec → Except Unit β) (dflt : β)
    (le : β → β → Bool) (reverse : Bool) (books : List Rec)
    (h : ∀ b ∈ books, (keyE b).isOk = true) :
    ∃ l, pySortedE keyE dflt le reverse books = .ok l ∧ l.Perm books := by
  unfold pySortedE
  rw [if_pos (List.all_eq_true.mpr h)]
  exact ⟨_, rfl, pySorted_perm _ _ _ _⟩

theorem pySortedValE_ok_of_str (key : Rec → Val) (reverse : Bool) (books : List Rec)
    (h : ∀ b ∈ books, isVStr (key b) = true) :
    ∃ l, pySortedValE key reverse books = .ok l ∧ l.Perm books := by
  unfold pySortedValE
  have hall : (books.map key).all isVStr = true := by
    rw [List.all_eq_true]
    intro v hv
    obtain ⟨b, hb, hbv⟩ := List.mem_map.mp hv
    rw [← hbv]
    exact h b hb
  rw [if_pos (by unfold valKeysComparable; rw [hall]; rfl)]
  exact ⟨_, rfl, pySorted_perm _ _ _ _⟩

/-- C10 (amended): whenever `sort_books` completes it returns a permutation
of its input, and an unrecognised sort key dispatches exactly as
`reading_date` does; on books whose `title`, `author` and `created_at`
values are strings or falsy, and reading records whose present `start_date`
values are strings, every sort completes. A truthy non-string sort field
makes the Python comparator raise instead. -/
theorem sort_books_spec :
    (∀ (books : List Rec) (sb : String) (rr : Option (List Rec)) (rev : Option Bool)
        (l : List Rec),
      sort_books books sb rr rev = .ok l → l.Perm books) ∧
    (∀ (books : List Rec) (sb : String) (rr : Option (List Rec)) (rev : Option Bool),
      sortOptionKeys.contains sb = false →
      sort_books books sb rr rev = sort_books books "reading_date" rr rev) ∧
    (∀ (books : List Rec) (sb : String) (rr : Option (List Rec)) (rev : Option Bool),
      (∀ b ∈ books, okStrField b "title" = true ∧ okStrField b "author" = true ∧
        okStrField b "created_at" = true) →
      (∀ r ∈ rr.getD [], strIfPresent r "start_date" = true) →
      ∃ l, sort_books books sb rr rev = .ok l ∧ l.Perm books) := by
  refine ⟨?_, ?_, ?_⟩
  · intro books sb rr rev l h
    unfold sort_books at h
    dsimp only at h
    split_ifs at h <;>
      first
        | exact sort_by_reading_date_ok_perm _ _ _ _ h
        | exact pySortedValE_ok_perm _ _ _ _ h
        | exact pySortedE_ok_perm _ _ _ _ _ _ h
  · intro books sb rr rev h
    unfold sort_books
    rw [h]
    have hrd : sortOptionKeys.contains "reading_date" = true := by
      unfold sortOptionKeys
      simp
    rw [hrd]
    simp
  · intro books sb rr rev hbooks hrecs
    obtain ⟨m, hmok, hminv⟩ :=
      recordsByBookAux_ok (rr.getD []) hrecs (rr.getD []) [] (fun r h => h)
        (fun p hp => absurd hp (List.not_mem_nil p))
    have hrd : ∀ rv : Bool,
        ∃ l, sort_by_reading_date books (rr.getD []) rv = .ok l ∧ l.Perm books := by
      intro rv
      unfold sort_by_reading_date recordsByBookE
      rw [hmok]
      refine pySortedValE_ok_of_str _ _ _ (fun b hb => ?_)
      obtain ⟨s, hs⟩ := readingDateSortKey_str m b
        (fun p hp => hrecs p.2 (hminv p hp)) (hbooks b hb).2.2
      rw [hs]
      rfl
    have hda : ∀ rv : Bool,
        ∃ l, sort_by_date_added books rv = .ok l ∧ l.Perm books := by
      intro rv
      refine pySortedValE_ok_of_str _ _ _ (fun b hb => ?_)
      obtain ⟨s, hs⟩ := bookGetOrEmpty_str b "created_at" (hbooks b hb).2.2
      unfold dateAddedSortKey
      rw [hs]
      rfl
    have hau : ∀ rv : Bool,
        ∃ l, sort_by_author books rv = .ok l ∧ l.Perm books := fun rv =>
      pySortedE_ok_of_keys _ _ _ _ _
        (fun b hb => authorSortKeyE_ok b (hbooks b hb).1 (hbooks b hb).2.1)
    have hti : ∀ rv : Bool,
        ∃ l, sort_by_title books rv = .ok l ∧ l.Perm books := fun rv =>
      pySortedE_ok_of_keys _ _ _ _ _
        (fun b hb => titleSortKeyE_ok b (hbooks b hb).1 (hbooks b hb).2.1)
    have hyr : ∀ rv : Bool,
        ∃ l, sort_by_year books rv = .ok l ∧ l.Perm books := fun rv =>
      pySortedE_ok_of_keys _ _ _ _ _
        (fun b hb => yearSortKeyE_ok b (hbooks b hb).1)
    have hdw : ∀ rv : Bool,
        ∃ l, sort_by_dewey_decimal books rv = .ok l ∧ l.Perm books := fun rv =>
      pySortedE_ok_of_keys _ _ _ _ _
        (fun b hb => deweySortKeyE_ok b (hbooks b hb).1)
    unfold sort_books
    dsimp only
    split_ifs <;>
      first
        | exact hrd _
        | exact hda _
        | exact hau _
        | exact hti _
        | exact hyr _
        | exact hdw _

/-- C10 counterexample: a truthy integer `title` makes the title sort raise
(`title.lower()` on an `int`); a duplicated `book_id` whose earlier record
has `start_date = None` makes the reading-date sort raise
(`new_date > existing_date` against `None`); and `created_at` keys mixing
an int and a string make the date-added sort raise at comparison time. In
each case `sort_books` fails instead of returning a permutation. -/
theorem sort_books_counterexample :
    sort_books [[("title", Val.vInt 5)]] "title" none none = .error () ∧
    sort_books [[("id", Val.vInt 1)]] "reading_date"
      (some [[("book_id", Val.vInt 1), ("start_date", Val.vNone)],
             [("book_id", Val.vInt 1), ("start_date", Val.vStr "2024-01-01")]])
      none = .error () ∧
    sort_books [[("created_at", Val.vInt 5)], [("created_at", Val.vStr "x")]]
      "date_added" none none = .error () :=
  ⟨rfl, rfl, rfl⟩

theorem getD_take (cs : List Char) : ∀ (n j : Nat), j < n →
    (cs.take n).getD j '0' = cs.getD j '0' := by
  induction cs with
  | nil => intro n j _; simp
  | cons c rest ih =>
    intro n j h
    cases n with
    | zero => omega
    | succ n =>
      cases j with
      | zero => rfl
      | succ j => simpa using ih n j (by omega)

theorem isbn13WeightedSum_eq (ds : List Char) : ∀ (i : Nat),
    isbn13WeightedSum ds i =
      ∑ j ∈ Finset.range ds.length,
        charDigit (ds.getD j '0') * (if (i + j) % 2 = 0 then 1 else 3) := by
  induction ds with
  | nil => intro i; simp [isbn13WeightedSum]
  | cons c rest ih =>
    intro i
    rw [show isbn13WeightedSum (c :: rest) i =
      charDigit c * (if i % 2 = 0 then 1 else 3) + isbn13WeightedSum rest (i + 1) from rfl]
    rw [List.length_cons, Finset.sum_range_succ', ih (i + 1), add_comm]
    congr 1
    · apply Finset.sum_congr rfl
      intro j _
      have h1 : (c :: rest).getD (j + 1) '0' = rest.getD j '0' := rfl
      have h2 : (i + (j + 1)) = (i + 1 + j) := by omega
      rw [h1, h2]

/-- C7: `is_valid_isbn13` accepts a string exactly when it is 13 characters
long, consists only of decimal digits, and its 13th digit equals the ISBN-13
check digit `(10 − (Σ_{i<12} dᵢ·wᵢ mod 10)) mod 10` of the first twelve
digits, with weights alternating 1, 3, 1, 3, …. -/
theorem is_valid_isbn13_correct (s : String) :
    is_valid_isbn13 s = true ↔
      (s.toList.length = 13 ∧ (∀ c ∈ s.toList, pyIsDigit c = true) ∧
       charDigit (s.toList.getD 12 '0') =
         (10 - (∑ i ∈ Finset.range 12,
            charDigit (s.toList.getD i '0') * (if i % 2 = 0 then 1 else 3)) % 10) % 10) := by
  unfold is_valid_isbn13
  dsimp only
  split
  · rename_i h
    obtain ⟨hlen, hall⟩ := h
    have hsum : isbn13WeightedSum (s.toList.take 12) 0 =
        ∑ i ∈ Finset.range 12,
          charDigit (s.toList.getD i '0') * (if i % 2 = 0 then 1 else 3) := by
      rw [isbn13WeightedSum_eq, List.length_take, hlen]
      apply Finset.sum_congr (by norm_num)
      intro j hj
      rw [Finset.mem_range] at hj
      rw [getD_take s.toList 12 j (by omega)]
      have : (0 + j) % 2 = j % 2 := by omega
      rw [this]
    rw [decide_eq_true_eq, hsum]
    constructor
    · intro hcheck
      exact ⟨hlen, fun c hc => List.all_eq_true.mp hall c hc, hcheck.symm⟩
    · intro ⟨_, _, hcheck⟩
      exact hcheck.symm
  · rename_i h
    rw [not_and_or] at h
    constructor
    · intro hfalse
      exact absurd hfalse (by simp)
    · intro ⟨hlen, hdig, _⟩
      rcases h with h | h
      · exact absurd hlen h
      · exact absurd (List.all_eq_true.mpr (fun c hc => hdig c hc)) h

/-! ## Character-level lemmas for the ISBN conversions -/

theorem char_eq_of_toNat_eq {a b : Char} (h : a.toNat = b.toNat) : a = b :=
  Char.ext (UInt32.ext h)

theorem pyIsDigit_iff {c : Char} : pyIsDigit c = true ↔ 48 ≤ c.toNat ∧ c.toNat ≤ 57 := by
  simp [pyIsDigit]

theorem digit_kept {c : Char} (h : pyIsDigit c = true) : isKeptIsbnChar c = true := by
  rw [pyIsDigit_iff] at h
  simp [isKeptIsbnChar, pyIsSpace]
  omega

theorem digit_not_x88 {c : Char} (h : pyIsDigit c = true) :
    (c.toNat = 120 || c.toNat = 88) = false := by
  rw [pyIsDigit_iff] at h
  simp
  omega

theorem digit_isbn10CharVal {c : Char} (h : pyIsDigit c = true) :
    isbn10CharVal c = charDigit c := by
  rw [pyIsDigit_iff] at h
  unfold isbn10CharVal
  rw [if_neg (by simp; omega)]

theorem digit_ne_x {c : Char} (h : pyIsDigit c = true) : c ≠ 'x' := by
  intro heq
  subst heq
  exact absurd h (by decide)

theorem natToDigitChar_isDigit (n : Nat) : pyIsDigit (natToDigitChar n) = true := by
  unfold natToDigitChar
  split_ifs <;> decide

theorem charDigit_natToDigitChar {n : Nat} (h : n ≤ 9) :
    charDigit (natToDigitChar n) = n := by
  interval_cases n <;> decide

theorem natToDigitChar_charDigit {c : Char} (h : pyIsDigit c = true) :
    natToDigitChar (charDigit c) = c := by
  rw [pyIsDigit_iff] at h
  have h10 : c.toNat = 48 ∨ c.toNat = 49 ∨ c.toNat = 50 ∨ c.toNat = 51 ∨ c.toNat = 52 ∨
      c.toNat = 53 ∨ c.toNat = 54 ∨ c.toNat = 55 ∨ c.toNat = 56 ∨ c.toNat = 57 := by omega
  rcases h10 with h'|h'|h'|h'|h'|h'|h'|h'|h'|h' <;>
    (apply char_eq_of_toNat_eq; rw [show charDigit c = c.toNat - 48 from rfl, h']; decide)

/-- Shared computation for the ISBN-10 round trip: once `normalize_isbn`
has produced nine digits plus a final digit-or-X check character with a
valid ISBN-10 checksum, the 978 conversion produces a valid ISBN-13 that
converts back to the same ten characters. -/
theorem isbn10_core (s : String) (c0 c1 c2 c3 c4 c5 c6 c7 c8 last : Char)
    (h0 : pyIsDigit c0 = true) (h1 : pyIsDigit c1 = true) (h2 : pyIsDigit c2 = true)
    (h3 : pyIsDigit c3 = true) (h4 : pyIsDigit c4 = true) (h5 : pyIsDigit c5 = true)
    (h6 : pyIsDigit c6 = true) (h7 : pyIsDigit c7 = true) (h8 : pyIsDigit c8 = true)
    (hlast : pyIsDigit last = true ∨ last = 'X')
    (hnorm : normalize_isbn s = ⟨[c0, c1, c2, c3, c4, c5, c6, c7, c8, last]⟩)
    (hsum10 : (charDigit c0 * 10 + charDigit c1 * 9 + charDigit c2 * 8 +
      charDigit c3 * 7 + charDigit c4 * 6 + charDigit c5 * 5 + charDigit c6 * 4 +
      charDigit c7 * 3 + charDigit c8 * 2 + isbn10CharVal last) % 11 = 0) :
    ∃ t : String, isbn10_to_isbn13 s = some t ∧
      t.toList.length = 13 ∧ t.toList.take 3 = ['9', '7', '8'] ∧
      is_valid_isbn13 t = true ∧
      isbn13_to_isbn10 t = some ⟨[c0, c1, c2, c3, c4, c5, c6, c7, c8, last]⟩ := by
  obtain ⟨W, hW0⟩ : ∃ w, isbn13WeightedSum
      ['9', '7', '8', c0, c1, c2, c3, c4, c5, c6, c7, c8] 0 = w := ⟨_, rfl⟩
  obtain ⟨cd, hcddef⟩ : ∃ n, (10 - W % 10) % 10 = n := ⟨_, rfl⟩
  have hcdle : cd ≤ 9 := by omega
  have hmain : isbn10_to_isbn13 s =
      some ⟨['9', '7', '8', c0, c1, c2, c3, c4, c5, c6, c7, c8,
        natToDigitChar ((10 -
          isbn13WeightedSum ['9', '7', '8', c0, c1, c2, c3, c4, c5, c6, c7, c8] 0 % 10)
          % 10)]⟩ := by
    unfold isbn10_to_isbn13
    rw [hnorm]
    rfl
  rw [hW0, hcddef] at hmain
  refine ⟨⟨['9', '7', '8', c0, c1, c2, c3, c4, c5, c6, c7, c8, natToDigitChar cd]⟩,
    hmain, by simp, rfl, ?_, ?_⟩
  · unfold is_valid_isbn13
    simp only [String.toList]
    rw [if_pos]
    · rw [decide_eq_true_eq]
      rw [show List.take 12
          ['9', '7', '8', c0, c1, c2, c3, c4, c5, c6, c7, c8, natToDigitChar cd] =
          ['9', '7', '8', c0, c1, c2, c3, c4, c5, c6, c7, c8] from rfl]
      rw [show List.getD
          ['9', '7', '8', c0, c1, c2, c3, c4, c5, c6, c7, c8, natToDigitChar cd] 12 '0' =
          natToDigitChar cd from rfl]
      rw [charDigit_natToDigitChar hcdle, hW0]
      exact hcddef
    · refine ⟨by simp, ?_⟩
      simp [h0, h1, h2, h3, h4, h5, h6, h7, h8, natToDigitChar_isDigit]
      decide
  · have hkd : isKeptIsbnChar (natToDigitChar cd) = true :=
      digit_kept (natToDigitChar_isDigit cd)
    have hnx : ((natToDigitChar cd).toNat = 120 || (natToDigitChar cd).toNat = 88) = false :=
      digit_not_x88 (natToDigitChar_isDigit cd)
    have hne : (⟨['9', '7', '8', c0, c1, c2, c3, c4, c5, c6, c7, c8,
        natToDigitChar cd]⟩ : String) ≠ "" := by
      intro h
      exact absurd (congrArg String.toList h) (by simp)
    have hcleant : List.filter isKeptIsbnChar
        ['9', '7', '8', c0, c1, c2, c3, c4, c5, c6, c7, c8, natToDigitChar cd] =
        ['9', '7', '8', c0, c1, c2, c3, c4, c5, c6, c7, c8, natToDigitChar cd] := by
      simp [List.filter_cons, digit_kept h0, digit_kept h1, digit_kept h2, digit_kept h3,
        digit_kept h4, digit_kept h5, digit_kept h6, digit_kept h7, digit_kept h8, hkd,
        (by decide : isKeptIsbnChar '9' = true), (by decide : isKeptIsbnChar '7' = true),
        (by decide : isKeptIsbnChar '8' = true)]
    have hdigt : List.filter pyIsDigit
        ['9', '7', '8', c0, c1, c2, c3, c4, c5, c6, c7, c8, natToDigitChar cd] =
        ['9', '7', '8', c0, c1, c2, c3, c4, c5, c6, c7, c8, natToDigitChar cd] := by
      simp [List.filter_cons, h0, h1, h2, h3, h4, h5, h6, h7, h8, natToDigitChar_isDigit,
        (by decide : pyIsDigit '9' = true), (by decide : pyIsDigit '7' = true),
        (by decide : pyIsDigit '8' = true)]
    have hnormt : normalize_isbn
        ⟨['9', '7', '8', c0, c1, c2, c3, c4, c5, c6, c7, c8, natToDigitChar cd]⟩ =
        ⟨['9', '7', '8', c0, c1, c2, c3, c4, c5, c6, c7, c8, natToDigitChar cd]⟩ := by
      unfold normalize_isbn
      rw [if_neg hne]
      simp only [String.toList]
      rw [hcleant]
      rw [show List.getLast?
          ['9', '7', '8', c0, c1, c2, c3, c4, c5, c6, c7, c8, natToDigitChar cd] =
          some (natToDigitChar cd) by simp]
      rw [if_neg (by simp [hnx])]
      rw [hdigt]
    obtain ⟨T, hT0⟩ : ∃ tt, isbn10CheckSum [c0, c1, c2, c3, c4, c5, c6, c7, c8] 0 = tt :=
      ⟨_, rfl⟩
    have hTval : charDigit c0 * 10 + charDigit c1 * 9 + charDigit c2 * 8 +
        charDigit c3 * 7 + charDigit c4 * 6 + charDigit c5 * 5 + charDigit c6 * 4 +
        charDigit c7 * 3 + charDigit c8 * 2 = T := by
      rw [← hT0]
      simp [isbn10CheckSum]
      omega
    have hback : isbn13_to_isbn10
        ⟨['9', '7', '8', c0, c1, c2, c3, c4, c5, c6, c7, c8, natToDigitChar cd]⟩ =
        some ⟨[c0, c1, c2, c3, c4, c5, c6, c7, c8,
          (if 11 - (isbn10CheckSum [c0, c1, c2, c3, c4, c5, c6, c7, c8] 0) % 11 = 10
           then 'X'
           else if 11 - (isbn10CheckSum [c0, c1, c2, c3, c4, c5, c6, c7, c8] 0) % 11 = 11
           then '0'
           else natToDigitChar
             (11 - (isbn10CheckSum [c0, c1, c2, c3, c4, c5, c6, c7, c8] 0) % 11))]⟩ := by
      unfold isbn13_to_isbn10
      rw [hnormt]
      rfl
    rw [hT0] at hback
    rw [hback]
    have hlastchar : (if 11 - T % 11 = 10 then 'X'
        else if 11 - T % 11 = 11 then '0' else natToDigitChar (11 - T % 11)) = last := by
      rcases hlast with hd9 | hX
      · have hv : isbn10CharVal last = charDigit last := digit_isbn10CharVal hd9
        rw [hv] at hsum10
        have hbounds := pyIsDigit_iff.mp hd9
        have hcb : charDigit last ≤ 9 := by
          unfold charDigit
          omega
        by_cases hr0 : T % 11 = 0
        · have hzero : charDigit last = 0 := by omega
          have hlt : last = '0' := by
            apply char_eq_of_toNat_eq
            have h48 : last.toNat = 48 := by unfold charDigit at hzero; omega
            rw [h48]
            decide
          rw [hr0]
          norm_num
          exact hlt.symm
        · have hv9 : charDigit last = 11 - T % 11 := by omega
          rw [if_neg (by omega), if_neg (by omega), ← hv9,
            natToDigitChar_charDigit hd9]
      · subst hX
        have hXv : isbn10CharVal 'X' = 10 := by decide
        rw [hXv] at hsum10
        have hr1 : T % 11 = 1 := by omega
        rw [hr1]
        norm_num
    rw [hlastchar]

/-- C8: for every 10-character string of 9 digits followed by a digit or
`X`/`x` whose ISBN-10 check digit is valid, `isbn10_to_isbn13` returns a
13-character string beginning with 978 whose ISBN-13 check digit is valid
(`is_valid_isbn13`), and `isbn13_to_isbn10` applied to that result returns
the original string with a final lowercase `x` uppercased. -/
theorem isbn10_to_isbn13_roundtrip (s : String)
    (c0 c1 c2 c3 c4 c5 c6 c7 c8 c9 : Char)
    (hs : s.toList = [c0, c1, c2, c3, c4, c5, c6, c7, c8, c9])
    (hd : ∀ c ∈ [c0, c1, c2, c3, c4, c5, c6, c7, c8], pyIsDigit c = true)
    (hlast : pyIsDigit c9 = true ∨ c9 = 'X' ∨ c9 = 'x')
    (hsum : (∑ i ∈ Finset.range 10,
        isbn10CharVal (s.toList.getD i '0') * (10 - i)) % 11 = 0) :
    ∃ t : String, isbn10_to_isbn13 s = some t ∧
      t.toList.length = 13 ∧ t.toList.take 3 = ['9', '7', '8'] ∧
      is_valid_isbn13 t = true ∧
      isbn13_to_isbn10 t = some (upperLastX s) := by
  have hd0 : pyIsDigit c0 = true := hd c0 (by simp)
  have hd1 : pyIsDigit c1 = true := hd c1 (by simp)
  have hd2 : pyIsDigit c2 = true := hd c2 (by simp)
  have hd3 : pyIsDigit c3 = true := hd c3 (by simp)
  have hd4 : pyIsDigit c4 = true := hd c4 (by simp)
  have hd5 : pyIsDigit c5 = true := hd c5 (by simp)
  have hd6 : pyIsDigit c6 = true := hd c6 (by simp)
  have hd7 : pyIsDigit c7 = true := hd c7 (by simp)
  have hd8 : pyIsDigit c8 = true := hd c8 (by simp)
  have hsne : s ≠ "" := by
    intro h
    rw [h] at hs
    exact absurd hs (by simp)
  rw [hs] at hsum
  simp [Finset.sum_range_succ] at hsum
  rw [digit_isbn10CharVal hd0, digit_isbn10CharVal hd1, digit_isbn10CharVal hd2,
    digit_isbn10CharVal hd3, digit_isbn10CharVal hd4, digit_isbn10CharVal hd5,
    digit_isbn10CharVal hd6, digit_isbn10CharVal hd7, digit_isbn10CharVal hd8] at hsum
  rcases hlast with hd9 | hX | hx
  · have hclean : s.toList.filter isKeptIsbnChar =
        [c0, c1, c2, c3, c4, c5, c6, c7, c8, c9] := by
      rw [hs]
      simp [List.filter_cons, digit_kept hd0, digit_kept hd1, digit_kept hd2,
        digit_kept hd3, digit_kept hd4, digit_kept hd5, digit_kept hd6,
        digit_kept hd7, digit_kept hd8, digit_kept hd9]
    have hdig : List.filter pyIsDigit [c0, c1, c2, c3, c4, c5, c6, c7, c8, c9] =
        [c0, c1, c2, c3, c4, c5, c6, c7, c8, c9] := by
      simp [List.filter_cons, hd0, hd1, hd2, hd3, hd4, hd5, hd6, hd7, hd8, hd9]
    have hnorm : normalize_isbn s = ⟨[c0, c1, c2, c3, c4, c5, c6, c7, c8, c9]⟩ := by
      unfold normalize_isbn
      rw [if_neg hsne]
      dsimp only
      rw [hclean]
      rw [show List.getLast? [c0, c1, c2, c3, c4, c5, c6, c7, c8, c9] = some c9 by simp]
      rw [if_neg (by simp [digit_not_x88 hd9])]
      rw [hdig]
    have hup : upperLastX s = ⟨[c0, c1, c2, c3, c4, c5, c6, c7, c8, c9]⟩ := by
      unfold upperLastX
      rw [hs]
      simp [digit_ne_x hd9]
    rw [hup]
    exact isbn10_core s c0 c1 c2 c3 c4 c5 c6 c7 c8 c9 hd0 hd1 hd2 hd3 hd4 hd5 hd6 hd7
      hd8 (Or.inl hd9) hnorm (by omega)
  · subst hX
    have hclean : s.toList.filter isKeptIsbnChar =
        [c0, c1, c2, c3, c4, c5, c6, c7, c8, 'X'] := by
      rw [hs]
      simp [List.filter_cons, digit_kept hd0, digit_kept hd1, digit_kept hd2,
        digit_kept hd3, digit_kept hd4, digit_kept hd5, digit_kept hd6,
        digit_kept hd7, digit_kept hd8, (by decide : isKeptIsbnChar 'X' = true)]
    have hdig : List.filter pyIsDigit [c0, c1, c2, c3, c4, c5, c6, c7, c8, 'X'] =
        [c0, c1, c2, c3, c4, c5, c6, c7, c8] := by
      simp [List.filter_cons, hd0, hd1, hd2, hd3, hd4, hd5, hd6, hd7, hd8,
        (by decide : pyIsDigit 'X' = false)]
    have hnorm : normalize_isbn s = ⟨[c0, c1, c2, c3, c4, c5, c6, c7, c8, 'X']⟩ := by
      unfold normalize_isbn
      rw [if_neg hsne]
      dsimp only
      rw [hclean]
      rw [show List.getLast? [c0, c1, c2, c3, c4, c5, c6, c7, c8, 'X'] = some 'X' by simp]
      rw [if_pos (by decide), hdig]
      rfl
    have hup : upperLastX s = ⟨[c0, c1, c2, c3, c4, c5, c6, c7, c8, 'X']⟩ := by
      unfold upperLastX
      rw [hs]
      simp
    rw [hup]
    rw [show isbn10CharVal 'X' = 10 from by decide] at hsum
    exact isbn10_core s c0 c1 c2 c3 c4 c5 c6 c7 c8 'X' hd0 hd1 hd2 hd3 hd4 hd5 hd6 hd7
      hd8 (Or.inr rfl) hnorm (by rw [show isbn10CharVal 'X' = 10 from by decide]; omega)
  · subst hx
    have hclean : s.toList.filter isKeptIsbnChar =
        [c0, c1, c2, c3, c4, c5, c6, c7, c8, 'x'] := by
      rw [hs]
      simp [List.filter_cons, digit_kept hd0, digit_kept hd1, digit_kept hd2,
        digit_kept hd3, digit_kept hd4, digit_kept hd5, digit_kept hd6,
        digit_kept hd7, digit_kept hd8, (by decide : isKeptIsbnChar 'x' = true)]
    have hdig : List.filter pyIsDigit [c0, c1, c2, c3, c4, c5, c6, c7, c8, 'x'] =
        [c0, c1, c2, c3, c4, c5, c6, c7, c8] := by
      simp [List.filter_cons, hd0, hd1, hd2, hd3, hd4, hd5, hd6, hd7, hd8,
        (by decide : pyIsDigit 'x' = false)]
    have hnorm : normalize_isbn s = ⟨[c0, c1, c2, c3, c4, c5, c6, c7, c8, 'X']⟩ := by
      unfold normalize_isbn
      rw [if_neg hsne]
      dsimp only
      rw [hclean]
      rw [show List.getLast? [c0, c1, c2, c3, c4, c5, c6, c7, c8, 'x'] = some 'x' by simp]
      rw [if_pos (by decide), hdig]
      rfl
    have hup : upperLastX s = ⟨[c0, c1, c2, c3, c4, c5, c6, c7, c8, 'X']⟩ := by
      unfold upperLastX
      rw [hs]
      simp
    rw [hup]
    rw [show isbn10CharVal 'x' = 10 from by decide] at hsum
    exact isbn10_core s c0 c1 c2 c3 c4 c5 c6 c7 c8 'X' hd0 hd1 hd2 hd3 hd4 hd5 hd6 hd7
      hd8 (Or.inr rfl) hnorm (by rw [show isbn10CharVal 'X' = 10 from by decide]; omega)

/-- C8 witness: the round trip at the concrete ISBN-10 "0306406152". -/
theorem isbn10_to_isbn13_roundtrip_witness :
    ∃ t : String, isbn10_to_isbn13 "0306406152" = some t ∧
      t.toList.length = 13 ∧ t.toList.take 3 = ['9', '7', '8'] ∧
      is_valid_isbn13 t = true ∧
      isbn13_to_isbn10 t = some (upperLastX "0306406152") :=
  isbn10_to_isbn13_roundtrip "0306406152" '0' '3' '0' '6' '4' '0' '6' '1' '5' '2'
    (by decide) (by decide) (by decide) (by decide)

/-- C1 (amended): on a cache miss the orchestrator attempts the sources in
the fixed order OL-ISBN, GB-ISBN, OL-cover, PRH-cover, Amazon-cover,
OL-search, GB-search, iTunes-search; the two ISBN lookups are always
attempted together and the cover check runs only after both, then after
each individual later source; the first checkpoint at which the accumulated
record has a truthy `thumbnail_url` ends the call with that record cached,
and otherwise the accumulated metadata of all attempted sources reaches the
final fall-through. -/
theorem lookup_orchestrator_spec (w : LookupWorld) (cache : CacheState Rec) (now : Int)
    (isbn13 : String) (title author : Option String)
    (hmiss : lookupCacheHit cache now isbn13 title = false) :
    let clean := normalize_isbn isbn13
    let ckey := "isbn:" ++ clean
    let m2 := _merge_metadata (_merge_metadata (lookupSeed isbn13 title author)
      (w.open_library clean)) (w.google_books clean)
    let R := lookup_book_by_isbn13 w cache now isbn13 title author
    let trace0 : List Src := [.olIsbn, .gbIsbn, .olCover, .prhCover, .amzCover]
    (thumbTruthy m2 = true →
      R = ⟨some m2, cacheSet cache now ckey m2 cacheDefaultTtl, [.olIsbn, .gbIsbn]⟩) ∧
    (thumbTruthy m2 = false → ∀ u, w.open_library_cover_direct clean = some u →
      let b := alistSet (alistSet m2 "thumbnail_url" (Val.vStr u)) "cover_url"
        (Val.vStr (strReplace u "-M.jpg" "-L.jpg"))
      R = ⟨some b, cacheSet cache now ckey b cacheDefaultTtl,
        [.olIsbn, .gbIsbn, .olCover]⟩) ∧
    (thumbTruthy m2 = false → w.open_library_cover_direct clean = none →
      ∀ u, w.penguin_cover clean = some u →
      let b := alistSet (alistSet m2 "thumbnail_url" (Val.vStr u)) "cover_url" (Val.vStr u)
      R = ⟨some b, cacheSet cache now ckey b cacheDefaultTtl,
        [.olIsbn, .gbIsbn, .olCover, .prhCover]⟩) ∧
    (thumbTruthy m2 = false → w.open_library_cover_direct clean = none →
      w.penguin_cover clean = none → ∀ u, w.amazon_cover clean = some u →
      let b := alistSet (alistSet m2 "thumbnail_url" (Val.vStr u)) "cover_url" (Val.vStr u)
      R = ⟨some b, cacheSet cache now ckey b cacheDefaultTtl,
        [.olIsbn, .gbIsbn, .olCover, .prhCover, .amzCover]⟩) ∧
    (thumbTruthy m2 = false → w.open_library_cover_direct clean = none →
      w.penguin_cover clean = none → w.amazon_cover clean = none →
      ∀ t', valToOptStr (recGetD m2 "title") = some t' →
      (t' ≠ "" && t' ≠ "Unknown") = true →
      let sa := valToOptStr (recGetD m2 "author")
      let s1 := _merge_metadata m2 (w.open_library_search t' sa)
      (thumbTruthy s1 = true →
        R = ⟨some s1, cacheSet cache now ckey s1 cacheDefaultTtl,
          trace0 ++ [.olSearch]⟩) ∧
      (thumbTruthy s1 = false →
        let s2 := _merge_metadata s1 (w.google_books_search t' sa)
        (thumbTruthy s2 = true →
          R = ⟨some s2, cacheSet cache now ckey s2 cacheDefaultTtl,
            trace0 ++ [.olSearch, .gbSearch]⟩) ∧
        (thumbTruthy s2 = false →
          let s3 := _merge_metadata s2 (w.itunes_search t' sa)
          (thumbTruthy s3 = true →
            R = ⟨some s3, cacheSet cache now ckey s3 cacheDefaultTtl,
              trace0 ++ [.olSearch, .gbSearch, .itSearch]⟩) ∧
          (thumbTruthy s3 = false →
            R = lookupFinish cache now ckey s3
              (trace0 ++ [.olSearch, .gbSearch, .itSearch]))))) ∧
    (thumbTruthy m2 = false → w.open_library_cover_direct clean = none →
      w.penguin_cover clean = none → w.amazon_cover clean = none →
      searchGuard m2 = false →
      R = lookupFinish cache now ckey m2 trace0) := by
  dsimp only
  refine ⟨?_, ?_, ?_, ?_, ?_, ?_⟩
  · intro hth
    unfold lookup_book_by_isbn13
    rw [if_neg (by simp [hmiss])]
    dsimp only
    rw [hth]
    rfl
  · intro hth u hol
    unfold lookup_book_by_isbn13
    rw [if_neg (by simp [hmiss])]
    dsimp only
    rw [hth, hol]
    rfl
  · intro hth hol u hprh
    unfold lookup_book_by_isbn13
    rw [if_neg (by simp [hmiss])]
    dsimp only
    rw [hth, hol, hprh]
    rfl
  · intro hth hol hprh u hamz
    unfold lookup_book_by_isbn13
    rw [if_neg (by simp [hmiss])]
    dsimp only
    rw [hth, hol, hprh, hamz]
    rfl
  · intro hth hol hprh hamz t' hts hguard
    refine ⟨?_, ?_⟩
    · intro hs1
      unfold lookup_book_by_isbn13
      rw [if_neg (by simp [hmiss])]
      dsimp only
      rw [hth, hol, hprh, hamz, hts]
      dsimp only
      rw [hguard, hs1]
      rfl
    · intro hs1
      refine ⟨?_, ?_⟩
      · intro hs2
        unfold lookup_book_by_isbn13
        rw [if_neg (by simp [hmiss])]
        dsimp only
        rw [hth, hol, hprh, hamz, hts]
        dsimp only
        rw [hguard, hs1, hs2]
        rfl
      · intro hs2
        refine ⟨?_, ?_⟩
        · intro hs3
          unfold lookup_book_by_isbn13
          rw [if_neg (by simp [hmiss])]
          dsimp only
          rw [hth, hol, hprh, hamz, hts]
          dsimp only
          rw [hguard, hs1, hs2, hs3]
          rfl
        · intro hs3
          unfold lookup_book_by_isbn13
          rw [if_neg (by simp [hmiss])]
          dsimp only
          rw [hth, hol, hprh, hamz, hts]
          dsimp only
          rw [hguard, hs1, hs2, hs3]
          rfl
  · intro hth hol hprh hamz hguard
    unfold searchGuard at hguard
    revert hguard
    cases hts : valToOptStr (recGetD (_merge_metadata (_merge_metadata
        (lookupSeed isbn13 title author) (w.open_library (normalize_isbn isbn13)))
        (w.google_books (normalize_isbn isbn13))) "title") with
    | none =>
      intro _
      unfold lookup_book_by_isbn13
      rw [if_neg (by simp [hmiss])]
      dsimp only
      rw [hth, hol, hprh, hamz, hts]
      rfl
    | some t =>
      intro hguard
      have hg2 : (decide (t ≠ "") && decide (t ≠ "Unknown")) = false := hguard
      unfold lookup_book_by_isbn13
      rw [if_neg (by simp [hmiss])]
      dsimp only
      rw [hth, hol, hprh, hamz, hts]
      dsimp only
      rw [if_neg (show ¬((decide (t ≠ "") && decide (t ≠ "Unknown")) = true) from by
        rw [hg2]
        exact Bool.false_ne_true)]
      rfl

/-- C1 counterexample: a world where the Open Library ISBN lookup alone
already yields a cover image (a truthy `thumbnail_url` in the accumulated
record), yet the orchestrator still attempts the Google Books ISBN lookup
and merges its metadata, contradicting "attempting no later source as soon
as any source yields a cover image". -/
theorem lookup_orchestrator_counterexample :
    thumbTruthy (_merge_metadata (lookupSeed "9780306406157" none none)
      (exampleWorldOLCover.open_library "9780306406157")) = true ∧
    (lookup_book_by_isbn13 exampleWorldOLCover [] 0 "9780306406157" none none).trace =
      [Src.olIsbn, Src.gbIsbn] ∧
    List.lookup "title"
      ((lookup_book_by_isbn13 exampleWorldOLCover [] 0 "9780306406157" none none).result.getD [])
      = some (Val.vStr "GB Title") :=
  ⟨rfl, rfl, rfl⟩

/-- C1 witness: the orchestrator characterisation applied to a concrete
cache-missing call, yielding the concrete merged record of the two ISBN
lookups. -/
theorem lookup_orchestrator_spec_witness :
    lookupCacheHit ([] : CacheState Rec) 0 "9780306406157" none = false ∧
    (lookup_book_by_isbn13 exampleWorldOLCover [] 0 "9780306406157" none none).result =
      some [("isbn13", Val.vStr "9780306406157"),
            ("thumbnail_url", Val.vStr "http://ol/cover.jpg"),
            ("title", Val.vStr "GB Title")] := by
  constructor
  · rfl
  · have h := (lookup_orchestrator_spec exampleWorldOLCover [] 0 "9780306406157"
      none none rfl).1 rfl
    exact congrArg LookupResult.result h

theorem pyTry_isOk {α : Type} (b : Except Unit α) (fb : α) : (pyTry b fb).isOk = true := by
  cases b <;> rfl

/-- C3 (amended): the eight adapters whose whole body sits inside
`try/except Exception` return without raising on every HTTP outcome;
`_lookup_open_library`, whose `try` covers only the HTTP call, status check
and JSON decode, returns `None` on a network failure, an error status, an
undecodable body, or a decoded JSON object lacking its ISBN key — but its
key-membership test runs after the `except` clause, so it is not covered
for payloads of other JSON shapes. -/
theorem adapters_no_raise_spec :
    (∀ out, (_lookup_google_booksE out).isOk = true) ∧
    (∀ out, (_lookup_google_books_searchE out).isOk = true) ∧
    (∀ out, (_lookup_itunesE out).isOk = true) ∧
    (∀ out, (_lookup_itunes_searchE out).isOk = true) ∧
    (∀ out1 out2, (_lookup_open_library_searchE out1 out2).isOk = true) ∧
    (∀ isbn13 out, (_lookup_open_library_cover_directE isbn13 out).isOk = true) ∧
    (∀ isbn13 out sr, (_lookup_amazon_coverE isbn13 out sr).isOk = true) ∧
    (∀ isbn13 out, (_lookup_penguin_coverE isbn13 out).isOk = true) ∧
    (∀ isbn13, _lookup_open_libraryE isbn13 .netError = .ok none) ∧
    (∀ isbn13 st body, st ≥ 400 →
      _lookup_open_libraryE isbn13 (.response st body) = .ok none) ∧
    (∀ isbn13 st, st < 400 →
      _lookup_open_libraryE isbn13 (.response st none) = .ok none) ∧
    (∀ isbn13 st fields, st < 400 → List.lookup ("ISBN:" ++ isbn13) fields = none →
      _lookup_open_libraryE isbn13 (.response st (some (.jObj fields))) = .ok none) := by
  refine ⟨?_, ?_, ?_, ?_, ?_, ?_, ?_, ?_, ?_, ?_, ?_, ?_⟩
  · intro out; exact pyTry_isOk _ _
  · intro out; exact pyTry_isOk _ _
  · intro out; exact pyTry_isOk _ _
  · intro out; exact pyTry_isOk _ _
  · intro out1 out2; exact pyTry_isOk _ _
  · intro isbn13 out; exact pyTry_isOk _ _
  · intro isbn13 out sr
    unfold _lookup_amazon_coverE
    cases isbn13_to_isbn10 isbn13 with
    | none => rfl
    | some i => exact pyTry_isOk _ _
  · intro isbn13 out; exact pyTry_isOk _ _
  · intro isbn13; rfl
  · intro isbn13 st body hst
    unfold _lookup_open_libraryE fetchJsonRaise
    dsimp only
    rw [if_pos hst]
  · intro isbn13 st hst
    unfold _lookup_open_libraryE fetchJsonRaise
    dsimp only
    rw [if_neg (by omega)]
  · intro isbn13 st fields hst hlk
    unfold _lookup_open_libraryE fetchJsonRaise
    dsimp only
    rw [if_neg (by omega)]
    simp [pyContains, hlk, Except.bind, Bind.bind, Pure.pure, Except.pure]

/-- C3 counterexample: a 200 response whose decoded JSON body is the number
5 makes `_lookup_open_library` raise (`in` on an `int` is a `TypeError`
outside the `try` block). -/
theorem lookup_open_library_raise_counterexample :
    _lookup_open_libraryE "9780306406157" (.response 200 (some (.jNum 5))) = .error () :=
  rfl

theorem processTail_deep (b : Rec) (oi : Option Rec) (c : CacheState Rec) (d : Bool) :
    (processTail b oi c d).deep = d := by
  cases oi <;> rfl

theorem process_book_deep (w : LookupWorld) (cache : CacheState Rec) (now : Int)
    (br : List (String × Option Rec)) (b : Rec) :
    (process_book w cache now br b).deep = deepFallbackNeeded br b := by
  unfold process_book
  dsimp only
  rw [processTail_deep]
  rfl

theorem enhanceLoop_frame (w : LookupWorld) (now : Int)
    (br : List (String × Option Rec)) :
    ∀ (books : List Rec) (cache : CacheState Rec),
      (enhanceLoop w now br books cache).books.length = books.length ∧
      (enhanceLoop w now br books cache).flags.length = books.length ∧
      (enhanceLoop w now br books cache).updated =
        (enhanceLoop w now br books cache).flags.count true ∧
      (∀ i, isCandidate (books.getD i []) = false →
        (enhanceLoop w now br books cache).books.getD i [] = books.getD i [] ∧
        (enhanceLoop w now br books cache).flags.getD i false = false) := by
  intro books
  induction books with
  | nil =>
    intro cache
    refine ⟨rfl, rfl, rfl, ?_⟩
    intro i _
    exact ⟨rfl, rfl⟩
  | cons b rest ih =>
    intro cache
    unfold enhanceLoop
    cases hc : isCandidate b with
    | true =>
      rw [if_pos rfl]
      dsimp only
      obtain ⟨ih1, ih2, ih3, ih4⟩ := ih (process_book w cache now br b).cache
      refine ⟨by simp [ih1], by simp [ih2], ?_, ?_⟩
      · simp only [List.count_cons, ih3]
        cases (process_book w cache now br b).has_updates <;> simp [Nat.add_comm]
      · intro i hif
        cases i with
        | zero =>
          simp only [List.getD_cons_zero] at hif
          rw [hif] at hc
          exact absurd hc (by simp)
        | succ j =>
          simp only [List.getD_cons_succ]
          exact ih4 j (by simpa using hif)
    | false =>
      rw [if_neg (by simp [hc])]
      dsimp only
      obtain ⟨ih1, ih2, ih3, ih4⟩ := ih cache
      refine ⟨by simp [ih1], by simp [ih2], by simpa using ih3, ?_⟩
      intro i hif
      cases i with
      | zero => exact ⟨rfl, rfl⟩
      | succ j =>
        simp only [List.getD_cons_succ]
        exact ih4 j (by simpa using hif)

theorem getD_map_false (books : List Rec) :
    ∀ i, (books.map (fun _ => false)).getD i false = false := by
  induction books with
  | nil => intro i; rfl
  | cons b rest ih =>
    intro i
    cases i with
    | zero => rfl
    | succ j => exact ih j

theorem count_true_map_false (books : List Rec) :
    List.count true (books.map (fun _ => false)) = 0 := by
  induction books with
  | nil => rfl
  | cons b rest ih => simpa [List.count_cons] using ih

/-- C6 (amended): `enhance_books_batch` preserves the book list
positionally; a book failing the candidate test - a falsy `isbn13`, or a
present cover together with every tracked field non-empty - is returned
unchanged with its update flag false; and the returned count is exactly the
number of true update flags, i.e. of candidates whose processing completed
and reported an update. A false flag does not mean the book is unchanged:
a raise after in-place fills leaves the book modified but uncounted. -/
theorem enhance_books_frame_spec (w : LookupWorld) (cache : CacheState Rec) (now : Int)
    (books : List Rec) :
    (∀ b : Rec, isCandidate b = false ↔
      (pyTruthy (recGetD b "isbn13") = false ∨
       ((pyTruthy (recGetD b "cover_url") || pyTruthy (recGetD b "thumbnail_url")) = true ∧
        ∀ f ∈ enhanceFields, enhanceIsEmpty (recGetD b f) = false))) ∧
    (enhance_books_batch w cache now books).books.length = books.length ∧
    (enhance_books_batch w cache now books).flags.length = books.length ∧
    (enhance_books_batch w cache now books).updated =
      (enhance_books_batch w cache now books).flags.count true ∧
    (∀ i, isCandidate (books.getD i []) = false →
      (enhance_books_batch w cache now books).books.getD i [] = books.getD i [] ∧
      (enhance_books_batch w cache now books).flags.getD i false = false) := by
  refine ⟨?_, ?_⟩
  · intro b
    unfold isCandidate
    cases hp : pyTruthy (recGetD b "isbn13") with
    | false => simp
    | true =>
      cases hcov : pyTruthy (recGetD b "cover_url") || pyTruthy (recGetD b "thumbnail_url") with
      | false => simp
      | true => simp [List.any_eq_false]
  · unfold enhance_books_batch
    dsimp only
    split
    · refine ⟨by simp, by simp, (count_true_map_false books).symm, ?_⟩
      intro i _
      exact ⟨rfl, getD_map_false books i⟩
    · exact enhanceLoop_frame w now _ books _

/-- C6 counterexample: the batch record carries a thumbnail, a title and a
numeric `publish_date`; `process_book` fills `thumbnail_url` and `title`
into the book in place, then `parse_publication_year(2023)` raises
`AttributeError` and the `except` clause returns `False` - so the book
comes back modified while the update flag is false and the returned count
is 0. -/
theorem enhance_books_frame_counterexample :
    (enhance_books_batch exampleWorldBatchYearInt [] 0
        [[("isbn13", Val.vStr "9780306406157")]]).books =
      [[("isbn13", Val.vStr "9780306406157"),
        ("thumbnail_url", Val.vStr "http://x/t.jpg"), ("title", Val.vStr "T")]] ∧
    (enhance_books_batch exampleWorldBatchYearInt [] 0
        [[("isbn13", Val.vStr "9780306406157")]]).flags = [false] ∧
    (enhance_books_batch exampleWorldBatchYearInt [] 0
        [[("isbn13", Val.vStr "9780306406157")]]).updated = 0 :=
  ⟨rfl, rfl, rfl⟩

theorem batch_cacheStep_misses (cache : CacheState Rec) (now : Int) :
    ∀ (l : List String) (acc : List (String × Option Rec) × List String),
    (l.foldl (fun (a : List (String × Option Rec) × List String) isbn =>
        match cacheGet cache now ("isbn:" ++ isbn) with
        | some c => if c ≠ [] then (alistSet a.1 isbn (some c), a.2)
                    else (a.1, a.2 ++ [isbn])
        | none => (a.1, a.2 ++ [isbn])) acc).2 =
      acc.2 ++ l.filter (fun i => !batchCacheHit cache now i) := by
  intro l
  induction l with
  | nil => intro acc; simp
  | cons i l ih =>
    intro acc
    simp only [List.foldl_cons, List.filter_cons]
    cases hG : cacheGet cache now ("isbn:" ++ i) with
    | none =>
      have hhit : batchCacheHit cache now i = false := by
        unfold batchCacheHit; rw [hG]
      rw [hhit]
      dsimp only
      rw [ih]
      simp
    | some c =>
      by_cases hc : c = []
      · have hhit : batchCacheHit cache now i = false := by
          unfold batchCacheHit; rw [hG]; simp [hc]
        rw [hhit]
        dsimp only
        rw [if_neg (by simp [hc])]
        rw [ih]
        simp
      · have hhit : batchCacheHit cache now i = true := by
          unfold batchCacheHit; rw [hG]; simp [hc]
        rw [hhit]
        dsimp only
        rw [if_pos hc]
        rw [ih]
        simp

theorem batch_cacheStep_lookup_not_mem (cache : CacheState Rec) (now : Int) :
    ∀ (l : List String) (acc : List (String × Option Rec) × List String) (k : String),
    k ∉ l →
    List.lookup k (l.foldl (fun (a : List (String × Option Rec) × List String) isbn =>
        match cacheGet cache now ("isbn:" ++ isbn) with
        | some c => if c ≠ [] then (alistSet a.1 isbn (some c), a.2)
                    else (a.1, a.2 ++ [isbn])
        | none => (a.1, a.2 ++ [isbn])) acc).1 = List.lookup k acc.1 := by
  intro l
  induction l with
  | nil => intro acc k _; rfl
  | cons i l ih =>
    intro acc k hk
    have hne : k ≠ i := fun h => hk (h ▸ List.mem_cons_self i l)
    have hkl : k ∉ l := fun h => hk (List.mem_cons_of_mem i h)
    simp only [List.foldl_cons]
    cases hG : cacheGet cache now ("isbn:" ++ i) with
    | none => exact ih _ k hkl
    | some c =>
      dsimp only
      by_cases hc : c = []
      · rw [if_neg (by simp [hc])]
        exact ih _ k hkl
      · rw [if_pos hc]
        rw [ih _ k hkl]
        exact lookup_alistSet_ne acc.1 i k (some c) hne

theorem batch_cacheStep_lookup_hit (cache : CacheState Rec) (now : Int) :
    ∀ (l : List String) (acc : List (String × Option Rec) × List String)
      (k : String) (c : Rec),
    l.Nodup → k ∈ l → cacheGet cache now ("isbn:" ++ k) = some c → c ≠ [] →
    List.lookup k (l.foldl (fun (a : List (String × Option Rec) × List String) isbn =>
        match cacheGet cache now ("isbn:" ++ isbn) with
        | some c => if c ≠ [] then (alistSet a.1 isbn (some c), a.2)
                    else (a.1, a.2 ++ [isbn])
        | none => (a.1, a.2 ++ [isbn])) acc).1 = some (some c) := by
  intro l
  induction l with
  | nil => intro acc k c _ hmem; exact absurd hmem (List.not_mem_nil k)
  | cons i l ih =>
    intro acc k c hnd hmem hG hc
    rw [List.nodup_cons] at hnd
    simp only [List.foldl_cons]
    rcases List.mem_cons.mp hmem with he | hmem2
    · subst he
      rw [hG]
      dsimp only
      rw [if_pos hc]
      rw [batch_cacheStep_lookup_not_mem cache now l _ k hnd.1]
      exact lookup_alistSet_self acc.1 k (some c)
    · cases hG2 : cacheGet cache now ("isbn:" ++ i) with
      | none => exact ih _ k c hnd.2 hmem2 hG hc
      | some c2 =>
        dsimp only
        by_cases hc2 : c2 = []
        · rw [if_neg (by simp [hc2])]
          exact ih _ k c hnd.2 hmem2 hG hc
        · rw [if_pos hc2]
          exact ih _ k c hnd.2 hmem2 hG hc

theorem chunks50Aux_subset {α : Type} :
    ∀ (fuel : Nat) (xs : List α) (c : List α), c ∈ chunks50Aux fuel xs →
      ∀ x ∈ c, x ∈ xs := by
  intro fuel
  induction fuel with
  | zero => intro xs c hc; exact absurd hc (List.not_mem_nil c)
  | succ n ih =>
    intro xs c hc x hx
    cases xs with
    | nil => exact absurd hc (List.not_mem_nil c)
    | cons y ys =>
      unfold chunks50Aux at hc
      rcases List.mem_cons.mp hc with he | hrest
      · subst he
        exact List.mem_of_mem_take hx
      · exact List.mem_of_mem_drop (ih _ c hrest x hx)

theorem chunks50_subset {α : Type} (xs : List α) (c : List α) (hc : c ∈ chunks50 xs) :
    ∀ x ∈ c, x ∈ xs :=
  chunks50Aux_subset xs.length xs c hc

theorem runBatchOk_lookup_not_mem (now : Int) (payload : List (String × Rec)) :
    ∀ (chunk : List String) (acc : BatchResult) (k : String), k ∉ chunk →
    List.lookup k ((chunk.foldl
      (fun (a : BatchResult) isbn =>
        match List.lookup isbn payload with
        | some data =>
          { results := alistSet a.results isbn (some data),
            cache := cacheSet a.cache now ("isbn:" ++ isbn) data cacheDefaultTtl }
        | none => { a with results := alistSet a.results isbn none }) acc)).results =
      List.lookup k acc.results := by
  intro chunk
  induction chunk with
  | nil => intro acc k _; rfl
  | cons i l ih =>
    intro acc k hk
    have hne : k ≠ i := fun h => hk (h ▸ List.mem_cons_self i l)
    have hkl : k ∉ l := fun h => hk (List.mem_cons_of_mem i h)
    simp only [List.foldl_cons]
    cases hP : List.lookup i payload with
    | none =>
      rw [ih _ k hkl]
      exact lookup_alistSet_ne acc.results i k none hne
    | some data =>
      rw [ih _ k hkl]
      exact lookup_alistSet_ne acc.results i k (some data) hne

theorem foldl_alistSet_none_lookup_not_mem :
    ∀ (l : List String) (r : List (String × Option Rec)) (k : String), k ∉ l →
    List.lookup k (l.foldl (fun r isbn => alistSet r isbn none) r) = List.lookup k r := by
  intro l
  induction l with
  | nil => intro r k _; rfl
  | cons i t ih =>
    intro r k hk
    have hne : k ≠ i := fun h => hk (h ▸ List.mem_cons_self i t)
    have hkt : k ∉ t := fun h => hk (List.mem_cons_of_mem i h)
    simp only [List.foldl_cons]
    rw [ih _ k hkt]
    exact lookup_alistSet_ne r i k none hne

theorem runBatchChunk_lookup_not_mem (w : LookupWorld) (now : Int)
    (chunk : List String) (acc : BatchResult) (k : String) (hk : k ∉ chunk) :
    List.lookup k (runBatchChunk w now acc chunk).results = List.lookup k acc.results := by
  unfold runBatchChunk
  cases w.batch_chunk chunk with
  | status code => rfl
  | httpError => exact foldl_alistSet_none_lookup_not_mem chunk acc.results k hk
  | ok payload => exact runBatchOk_lookup_not_mem now payload chunk acc k hk

theorem batchChunks_lookup_not_mem (w : LookupWorld) (now : Int) :
    ∀ (cs : List (List String)) (acc : BatchResult) (k : String),
    (∀ c ∈ cs, k ∉ c) →
    List.lookup k (cs.foldl (runBatchChunk w now) acc).results =
      List.lookup k acc.results := by
  intro cs
  induction cs with
  | nil => intro acc k _; rfl
  | cons c rest ih =>
    intro acc k hk
    simp only [List.foldl_cons]
    rw [ih _ k (fun c2 h2 => hk c2 (List.mem_cons_of_mem c h2))]
    exact runBatchChunk_lookup_not_mem w now c acc k (hk c (List.mem_cons_self c rest))

theorem enhanceLoop_deepIsbns (w : LookupWorld) (now : Int)
    (br : List (String × Option Rec)) :
    ∀ (books : List Rec) (cache : CacheState Rec),
    (enhanceLoop w now br books cache).deepIsbns =
      ((books.filter isCandidate).filter (fun b => deepFallbackNeeded br b)).map
        (fun b => normalize_isbn (valToIsbnStr (recGetD b "isbn13"))) := by
  intro books
  induction books with
  | nil => intro cache; rfl
  | cons b rest ih =>
    intro cache
    unfold enhanceLoop
    cases hc : isCandidate b with
    | true =>
      rw [if_pos rfl]
      dsimp only
      rw [List.filter_cons_of_pos hc, List.filter_cons,
        process_book_deep w cache now br b]
      try dsimp only
      cases hd : deepFallbackNeeded br b with
      | true =>
        rw [if_pos rfl, if_pos rfl, List.map_cons, ih]
        rfl
      | false =>
        rw [if_neg (by simp), if_neg (by simp), List.nil_append, ih]
    | false =>
      rw [if_neg (by simp [hc])]
      dsimp only
      rw [List.filter_cons_of_neg (by simp [hc])]
      exact ih cache

/-- C5 (amended): `lookup_books_batch` answers every ISBN whose cached value
is truthy straight from the cache; inside `enhance_books_batch` the deep
single-item orchestrator is invoked for exactly those candidates whose batch
record is missing, falsy, or lacks a truthy `thumbnail_url` - it is skipped
only when the batch lookup produced a truthy record that already carries a
thumbnail. -/
theorem enhance_batch_fallback_spec (w : LookupWorld) (cache : CacheState Rec)
    (now : Int) :
    (∀ (isbn13_list : List String) (isbn : String), isbn ∈ isbn13_list →
      ∀ c : Rec, cacheGet cache now ("isbn:" ++ normalize_isbn isbn) = some c → c ≠ [] →
      List.lookup (normalize_isbn isbn)
        (lookup_books_batch w cache now isbn13_list).results = some (some c)) ∧
    (∀ (br : List (String × Option Rec)) (b : Rec),
      deepFallbackNeeded br b = false ↔
      ∃ info : Rec,
        (List.lookup (normalize_isbn (valToIsbnStr (recGetD b "isbn13"))) br).getD none =
          some info ∧
        info ≠ [] ∧ pyTruthy (recGetD info "thumbnail_url") = true) ∧
    (∀ books : List Rec,
      (enhance_books_batch w cache now books).deepIsbns =
        ((books.filter isCandidate).filter (fun b =>
          deepFallbackNeeded (lookup_books_batch w cache now
            ((books.filter isCandidate).map
              (fun b => valToIsbnStr (recGetD b "isbn13")))).results b)).map
          (fun b => normalize_isbn (valToIsbnStr (recGetD b "isbn13")))) := by
  refine ⟨?_, ?_, ?_⟩
  · intro isbn13_list isbn hmem c hG hc
    unfold lookup_books_batch
    rw [if_neg (by rintro rfl; exact absurd hmem (List.not_mem_nil isbn))]
    dsimp only
    have hmemU : normalize_isbn isbn ∈ (isbn13_list.map normalize_isbn).dedup :=
      List.mem_dedup.mpr (List.mem_map_of_mem normalize_isbn hmem)
    have hndU : ((isbn13_list.map normalize_isbn).dedup).Nodup := List.nodup_dedup _
    have hhit : batchCacheHit cache now (normalize_isbn isbn) = true := by
      unfold batchCacheHit; rw [hG]; simp [hc]
    split
    · exact batch_cacheStep_lookup_hit cache now _ _ _ c hndU hmemU hG hc
    · rw [batchChunks_lookup_not_mem w now _ _ (normalize_isbn isbn) ?notin]
      · exact batch_cacheStep_lookup_hit cache now _ _ _ c hndU hmemU hG hc
      case notin =>
        intro ch hch hmemch
        have hxs := chunks50_subset _ ch hch _ hmemch
        rw [batch_cacheStep_misses cache now] at hxs
        rw [List.nil_append] at hxs
        have := List.of_mem_filter hxs
        rw [hhit] at this
        exact absurd this (by simp)
  · intro br b
    unfold deepFallbackNeeded
    cases hL : (List.lookup (normalize_isbn (valToIsbnStr (recGetD b "isbn13"))) br).getD none with
    | none => simp
    | some info =>
      constructor
      · intro h
        refine ⟨info, rfl, ?_⟩
        simpa using h
      · rintro ⟨info2, he, h1, h2⟩
        cases he
        simp [h1, h2]
  · intro books
    unfold enhance_books_batch
    dsimp only
    split
    · next hemp =>
      rw [hemp]
      rfl
    · exact enhanceLoop_deepIsbns w now _ books _

/-- C5 counterexample: the batch endpoint returns a (truthy) record for the
ISBN - the batch lookup did not miss - yet, because that record has no
thumbnail, `enhance_books_batch` still invokes the deep single-item
fallback for it. -/
theorem enhance_batch_fallback_counterexample :
    List.lookup "9780306406157"
      (lookup_books_batch exampleWorldBatchNoThumb [] 0 ["9780306406157"]).results =
      some (some [("title", Val.vStr "Batch Title")]) ∧
    (enhance_books_batch exampleWorldBatchNoThumb [] 0
      [[("isbn13", Val.vStr "9780306406157")]]).deepIsbns = ["9780306406157"] :=
  ⟨rfl, rfl⟩
